import Mathlib

/-!
# Verification of the stock dashboard's Indicator & Signal Engine

Shallow embedding of the backend stock service: the technical-indicator
library (`technicalIndicators.js`), the per-date mapping and dispatch in
`stockService.js` (`mapIndicatorToData`, `calculateTechnicalIndicator`),
the trading-signal generator (`generateTradingSignals`), the synthetic
data generator (`getMockStockData`) and the provider-fallback fetch
(`getStockData`, `getStockIndicator`).

JavaScript numbers are modelled as exact rationals extended with the
special values `NaN`, `Infinity` and `-Infinity`; arithmetic on the
special values follows the JavaScript (IEEE-754) rules, while finite
arithmetic is exact (binary-mantissa rounding is not modelled).
`toFixed(n)` followed by `parseFloat` is modelled as exact decimal
rounding to `n` places.  Dates are modelled as integer day numbers.

Rationals are represented by the executable type `Q` (integer numerator,
positive natural denominator, not necessarily reduced), interpreted into
Mathlib's `ℚ` by `Q.toRat`; value equality and order are decided by
cross-multiplication, so every computation reduces in the kernel.
-/

/-- Decimal rounding of a rational to `k` places (models `toFixed(k)`
followed by `parseFloat`, ignoring binary-float artifacts). -/
def ratRoundTo (k : ℕ) (q : ℚ) : ℚ := (round (q * (10 ^ k : ℚ)) : ℚ) / (10 ^ k : ℚ)

/-- Executable rational: numerator over a positive (not necessarily
coprime) denominator. -/
structure Q where
  n : ℤ
  d : ℕ
  dpos : 0 < d

namespace Q

/-- Interpretation into Mathlib's rationals. -/
def toRat (a : Q) : ℚ := (a.n : ℚ) / (a.d : ℚ)

def ofInt (k : ℤ) : Q := ⟨k, 1, Nat.one_pos⟩

/-- Reduce a fraction by the gcd of numerator and denominator (keeps the
representation small; the value is unchanged). -/
def normQ (n : ℤ) (d : ℕ) (h : 0 < d) : Q :=
  let g := Nat.gcd n.natAbs d
  if hg : g = 0 then ⟨n, d, h⟩
  else ⟨n / (g : ℤ), d / g,
    Nat.div_pos (Nat.le_of_dvd h (Nat.gcd_dvd_right n.natAbs d)) (Nat.pos_of_ne_zero hg)⟩

def add (a b : Q) : Q :=
  normQ (a.n * b.d + b.n * a.d) (a.d * b.d) (Nat.mul_pos a.dpos b.dpos)

def neg (a : Q) : Q := ⟨-a.n, a.d, a.dpos⟩

def sub (a b : Q) : Q := add a (neg b)

def mul (a b : Q) : Q :=
  normQ (a.n * b.n) (a.d * b.d) (Nat.mul_pos a.dpos b.dpos)

/-- Division; the zero-divisor case is unreachable (the JS-number layer
tests for a zero divisor first) and returns 0. -/
def div (a b : Q) : Q :=
  if h : 0 < b.n then
    normQ (a.n * b.d) (a.d * b.n.natAbs)
      (Nat.mul_pos a.dpos (Int.natAbs_pos.mpr (ne_of_gt h)))
  else if h2 : b.n < 0 then
    normQ (-(a.n * b.d)) (a.d * b.n.natAbs)
      (Nat.mul_pos a.dpos (Int.natAbs_pos.mpr (ne_of_lt h2)))
  else ofInt 0

/-- Value order, by cross-multiplication. -/
def blt (a b : Q) : Bool := decide (a.n * b.d < b.n * a.d)

/-- Value equality, by cross-multiplication. -/
def beq (a b : Q) : Bool := decide (a.n * (b.d : ℤ) = b.n * (a.d : ℤ))

def qabs (a : Q) : Q := ⟨|a.n|, a.d, a.dpos⟩

def isZero (a : Q) : Bool := decide (a.n = 0)

/-- Decimal rounding to `k` places: `round(x·10^k)/10^k` with
round-half-up, computed as a floor division. -/
def roundTo (k : ℕ) (a : Q) : Q :=
  normQ ((2 * a.n * 10 ^ k + a.d) / (2 * (a.d : ℤ))) (10 ^ k)
    (pow_pos (by norm_num) k)

instance (k : ℕ) : OfNat Q k := ⟨ofInt k⟩

theorem dcast_pos (a : Q) : (0 : ℚ) < (a.d : ℚ) := by
  exact_mod_cast a.dpos

theorem dcast_ne (a : Q) : (a.d : ℚ) ≠ 0 := ne_of_gt (dcast_pos a)

theorem toRat_normQ (n : ℤ) (d : ℕ) (h : 0 < d) :
    (normQ n d h).toRat = (n : ℚ) / (d : ℚ) := by
  unfold normQ toRat
  by_cases hg : Nat.gcd n.natAbs d = 0
  · simp [hg]
  · have hgpos : 0 < Nat.gcd n.natAbs d := Nat.pos_of_ne_zero hg
    have hdvd_n : ((Nat.gcd n.natAbs d : ℤ)) ∣ n := by
      rw [← Int.dvd_natAbs]
      exact_mod_cast Nat.gcd_dvd_left n.natAbs d
    have hdvd_d : Nat.gcd n.natAbs d ∣ d := Nat.gcd_dvd_right n.natAbs d
    have hgq : ((Nat.gcd n.natAbs d : ℕ) : ℚ) ≠ 0 := by
      exact_mod_cast hg
    have hdq : (d : ℚ) ≠ 0 := Nat.cast_ne_zero.mpr (Nat.pos_iff_ne_zero.mp h)
    simp only [hg, dite_false]
    rw [Int.cast_div_charZero hdvd_n, Nat.cast_div hdvd_d hgq]
    push_cast
    rw [div_div_div_cancel_right₀ hgq]

@[simp] theorem toRat_ofInt (k : ℤ) : toRat (ofInt k) = (k : ℚ) := by
  simp [toRat, ofInt]

@[simp] theorem toRat_ofNat (k : ℕ) : toRat (OfNat.ofNat k) = (k : ℚ) := by
  show toRat (ofInt k) = (k : ℚ)
  rw [toRat_ofInt]
  norm_cast

@[simp] theorem toRat_add (a b : Q) : toRat (add a b) = toRat a + toRat b := by
  unfold add
  rw [toRat_normQ]
  unfold toRat
  rw [div_add_div _ _ (dcast_ne a) (dcast_ne b)]
  push_cast
  ring_nf

@[simp] theorem toRat_neg (a : Q) : toRat (neg a) = -toRat a := by
  unfold toRat neg
  push_cast
  ring

@[simp] theorem toRat_sub (a b : Q) : toRat (sub a b) = toRat a - toRat b := by
  unfold sub
  rw [toRat_add, toRat_neg]
  ring

@[simp] theorem toRat_mul (a b : Q) : toRat (mul a b) = toRat a * toRat b := by
  unfold mul
  rw [toRat_normQ]
  unfold toRat
  push_cast
  rw [div_mul_div_comm]

theorem toRat_div (a b : Q) (h : b.n ≠ 0) :
    toRat (div a b) = toRat a / toRat b := by
  have hbq : (b.n : ℚ) ≠ 0 := Int.cast_ne_zero.mpr h
  rcases lt_trichotomy b.n 0 with hneg | hz | hpos
  · have habs : ((b.n.natAbs : ℕ) : ℚ) = -(b.n : ℚ) := by
      have hq : (b.n : ℚ) < 0 := by exact_mod_cast hneg
      rw [Int.cast_natAbs, Int.cast_abs]
      exact abs_of_neg hq
    unfold div
    rw [dif_neg (by omega), dif_pos hneg, toRat_normQ]
    unfold toRat
    push_cast [habs]
    field_simp
  · exact absurd hz h
  · have habs : ((b.n.natAbs : ℕ) : ℚ) = (b.n : ℚ) := by
      have hq : (0 : ℚ) ≤ (b.n : ℚ) := by exact_mod_cast le_of_lt hpos
      rw [Int.cast_natAbs, Int.cast_abs]
      exact abs_of_nonneg hq
    unfold div
    rw [dif_pos hpos, toRat_normQ]
    unfold toRat
    push_cast [habs]
    field_simp

theorem blt_iff (a b : Q) : blt a b = true ↔ toRat a < toRat b := by
  unfold blt toRat
  rw [div_lt_div_iff₀ (dcast_pos a) (dcast_pos b)]
  simp only [decide_eq_true_eq]
  constructor
  · intro h; exact_mod_cast h
  · intro h; exact_mod_cast h

theorem beq_iff (a b : Q) : beq a b = true ↔ toRat a = toRat b := by
  unfold beq toRat
  rw [div_eq_div_iff (dcast_ne a) (dcast_ne b)]
  simp only [decide_eq_true_eq]
  constructor
  · intro h; exact_mod_cast h
  · intro h; exact_mod_cast h

theorem isZero_iff (a : Q) : isZero a = true ↔ toRat a = 0 := by
  unfold isZero toRat
  rw [div_eq_zero_iff]
  simp [dcast_ne a, Int.cast_eq_zero]

theorem toRat_pos_iff (a : Q) : 0 < toRat a ↔ 0 < a.n := by
  constructor
  · intro h
    have h2 : (0 : ℚ) < (a.n : ℚ) := by
      have h3 := mul_pos h (dcast_pos a)
      rwa [toRat, div_mul_cancel₀ _ (dcast_ne a)] at h3
    exact_mod_cast h2
  · intro h
    exact div_pos (by exact_mod_cast h) (dcast_pos a)

theorem toRat_nonneg_iff (a : Q) : 0 ≤ toRat a ↔ 0 ≤ a.n := by
  constructor
  · intro h
    have h2 : (0 : ℚ) ≤ (a.n : ℚ) := by
      have h3 := mul_nonneg h (le_of_lt (dcast_pos a))
      rwa [toRat, div_mul_cancel₀ _ (dcast_ne a)] at h3
    exact_mod_cast h2
  · intro h
    exact div_nonneg (by exact_mod_cast h) (le_of_lt (dcast_pos a))

@[simp] theorem toRat_qabs (a : Q) : toRat (qabs a) = |toRat a| := by
  unfold toRat qabs
  rw [abs_div, abs_of_pos (dcast_pos a)]
  push_cast
  ring

theorem toRat_roundTo (k : ℕ) (a : Q) :
    toRat (roundTo k a) = ratRoundTo k (toRat a) := by
  have key : round ((a.n : ℚ) / (a.d : ℚ) * ((10 : ℚ) ^ k))
      = (2 * a.n * 10 ^ k + (a.d : ℤ)) / (2 * (a.d : ℤ)) := by
    rw [round_eq]
    have h1 : (a.n : ℚ) / (a.d : ℚ) * ((10 : ℚ) ^ k) + 1 / 2
        = ((2 * a.n * 10 ^ k + (a.d : ℤ) : ℤ) : ℚ) / ((2 * a.d : ℕ) : ℚ) := by
      have hd := dcast_ne a
      push_cast
      field_simp
      ring
    rw [h1, Rat.floor_intCast_div_natCast]
    norm_cast
  unfold roundTo
  rw [toRat_normQ]
  unfold toRat ratRoundTo
  rw [key]
  push_cast
  ring_nf

end Q

/-- A JavaScript number: an exact rational or one of the special values. -/
inductive JSNum where
  | nan
  | inf
  | ninf
  | num (q : Q)

namespace JSNum

/-- JS unary minus. -/
def neg : JSNum → JSNum
  | nan => nan
  | inf => ninf
  | ninf => inf
  | num q => num q.neg

/-- JS addition. -/
def add : JSNum → JSNum → JSNum
  | nan, _ => nan
  | _, nan => nan
  | inf, ninf => nan
  | ninf, inf => nan
  | inf, _ => inf
  | _, inf => inf
  | ninf, _ => ninf
  | _, ninf => ninf
  | num a, num b => num (a.add b)

/-- JS multiplication. -/
def mul : JSNum → JSNum → JSNum
  | nan, _ => nan
  | _, nan => nan
  | num a, num b => num (a.mul b)
  | inf, inf => inf
  | inf, ninf => ninf
  | ninf, inf => ninf
  | ninf, ninf => inf
  | inf, num q => if 0 < q.n then inf else if q.n < 0 then ninf else nan
  | num q, inf => if 0 < q.n then inf else if q.n < 0 then ninf else nan
  | ninf, num q => if 0 < q.n then ninf else if q.n < 0 then inf else nan
  | num q, ninf => if 0 < q.n then ninf else if q.n < 0 then inf else nan

/-- JS division (`x/0` is `±Infinity`, `0/0` is `NaN`). -/
def div : JSNum → JSNum → JSNum
  | nan, _ => nan
  | _, nan => nan
  | num a, num b =>
      if b.isZero then (if 0 < a.n then inf else if a.n < 0 then ninf else nan)
      else num (a.div b)
  | num _, inf => num 0
  | num _, ninf => num 0
  | inf, num q => if 0 ≤ q.n then inf else ninf
  | ninf, num q => if 0 ≤ q.n then ninf else inf
  | inf, _ => nan
  | ninf, _ => nan

instance : Neg JSNum := ⟨neg⟩
instance : Add JSNum := ⟨add⟩
instance : Mul JSNum := ⟨mul⟩
instance : Div JSNum := ⟨div⟩

/-- JS subtraction (`a - b` behaves as `a + (-b)` on all inputs). -/
def sub (a b : JSNum) : JSNum := a + (-b)

instance : Sub JSNum := ⟨sub⟩

instance (k : ℕ) : OfNat JSNum k := ⟨num (OfNat.ofNat k)⟩

/-- JS `<` comparison: any comparison involving `NaN` is false. -/
def ltb : JSNum → JSNum → Bool
  | nan, _ => false
  | _, nan => false
  | num a, num b => a.blt b
  | ninf, ninf => false
  | ninf, _ => true
  | _, ninf => false
  | inf, _ => false
  | _, inf => true

/-- JS `>` comparison. -/
def gtb (a b : JSNum) : Bool := ltb b a

/-- JS `Math.abs`. -/
def abs : JSNum → JSNum
  | nan => nan
  | inf => inf
  | ninf => inf
  | num q => num q.qabs

/-- JS `Math.max` of two numbers (`NaN` is absorbing). -/
def jmax : JSNum → JSNum → JSNum
  | nan, _ => nan
  | _, nan => nan
  | a, b => if ltb a b then b else a

/-- JS truthiness of a number: `0` and `NaN` are falsy. -/
def truthy : JSNum → Bool
  | nan => false
  | inf => true
  | ninf => true
  | num q => !q.isZero

/-- `parseFloat(x.toFixed(k))` on a JS number
(`NaN`/`±Infinity` round-trip via their string forms). -/
def roundTo (k : ℕ) : JSNum → JSNum
  | nan => nan
  | inf => inf
  | ninf => ninf
  | num q => num (q.roundTo k)

/-- `parseFloat(x.toFixed(4))`. -/
def round4 (x : JSNum) : JSNum := x.roundTo 4

/-- `parseFloat(x.toFixed(2))`. -/
def round2 (x : JSNum) : JSNum := x.roundTo 2

/-- Value equality of two modelled JS numbers (`NaN` equals `NaN`:
this is sameness of the modelled value, not the JS `===`). -/
def eqv : JSNum → JSNum → Bool
  | nan, nan => true
  | inf, inf => true
  | ninf, ninf => true
  | num a, num b => a.beq b
  | _, _ => false

/-- The finite value of a JS number, if any. -/
def val : JSNum → Option ℚ
  | num q => some q.toRat
  | _ => none

/-- The number is finite (not `NaN` and not `±Infinity`). -/
def isFinite : JSNum → Prop
  | num _ => True
  | _ => False

end JSNum

instance : DecidableEq Q := fun a b =>
  decidable_of_iff (a.n = b.n ∧ a.d = b.d) (by cases a; cases b; simp)

instance : DecidableEq JSNum := fun a b =>
  match a, b with
  | .nan, .nan => isTrue rfl
  | .inf, .inf => isTrue rfl
  | .ninf, .ninf => isTrue rfl
  | .num x, .num y =>
    match decEq x y with
    | isTrue h => isTrue (congrArg JSNum.num h)
    | isFalse h => isFalse (fun hc => h (JSNum.num.inj hc))
  | .nan, .inf => isFalse (fun h => JSNum.noConfusion h)
  | .nan, .ninf => isFalse (fun h => JSNum.noConfusion h)
  | .nan, .num _ => isFalse (fun h => JSNum.noConfusion h)
  | .inf, .nan => isFalse (fun h => JSNum.noConfusion h)
  | .inf, .ninf => isFalse (fun h => JSNum.noConfusion h)
  | .inf, .num _ => isFalse (fun h => JSNum.noConfusion h)
  | .ninf, .nan => isFalse (fun h => JSNum.noConfusion h)
  | .ninf, .inf => isFalse (fun h => JSNum.noConfusion h)
  | .ninf, .num _ => isFalse (fun h => JSNum.noConfusion h)
  | .num _, .nan => isFalse (fun h => JSNum.noConfusion h)
  | .num _, .inf => isFalse (fun h => JSNum.noConfusion h)
  | .num _, .ninf => isFalse (fun h => JSNum.noConfusion h)

namespace JSNum

@[simp] theorem add_num (a b : Q) : (num a) + (num b) = num (a.add b) := rfl
@[simp] theorem mul_num (a b : Q) : (num a) * (num b) = num (a.mul b) := rfl
@[simp] theorem neg_num (a : Q) : -(num a) = num a.neg := rfl
@[simp] theorem sub_num (a b : Q) : (num a) - (num b) = num (a.sub b) := rfl
@[simp] theorem ltb_num (a b : Q) : ltb (num a) (num b) = a.blt b := rfl
@[simp] theorem val_num (a : Q) : val (num a) = some a.toRat := rfl
@[simp] theorem truthy_num (a : Q) : truthy (num a) = !a.isZero := rfl
@[simp] theorem roundTo_num (k : ℕ) (a : Q) :
    roundTo k (num a) = num (a.roundTo k) := rfl

theorem div_num_pos (a b : Q) (h : ¬ b.isZero = true) :
    (num a) / (num b) = num (a.div b) := by
  show div (num a) (num b) = num (a.div b)
  unfold div
  simp [h]

end JSNum

/-- Helper for JS list indexing in arithmetic position: an out-of-range
read is `undefined`, which behaves as `NaN` in arithmetic and
comparisons. -/
def jget (l : List JSNum) (i : ℕ) : JSNum := (l.get? i).getD JSNum.nan

/-- JS `array.map((x, index) => ...)`, with the running index made
explicit. -/
def mapWithIndex (f : ℕ → α → β) : ℕ → List α → List β
  | _, [] => []
  | i, a :: as => f i a :: mapWithIndex f (i + 1) as

@[simp] theorem length_mapWithIndex (f : ℕ → α → β) (i : ℕ) (l : List α) :
    (mapWithIndex f i l).length = l.length := by
  induction l generalizing i with
  | nil => rfl
  | cons a as ih => simp [mapWithIndex, ih]

theorem get?_mapWithIndex (f : ℕ → α → β) (i : ℕ) (l : List α) (j : ℕ) :
    (mapWithIndex f i l).get? j = (l.get? j).map (f (i + j)) := by
  induction l generalizing i j with
  | nil => simp [mapWithIndex]
  | cons a as ih =>
    cases j with
    | zero => simp [mapWithIndex]
    | succ j =>
      have harith : i + 1 + j = i + (j + 1) := by omega
      simp only [mapWithIndex, List.get?_cons_succ, ih, harith]

example : (JSNum.num 1) / (JSNum.num 0) = JSNum.inf := by decide
example : (JSNum.num 0) / (JSNum.num 0) = JSNum.nan := by decide
example : ((JSNum.num 100) / JSNum.inf).eqv (JSNum.num 0) = true := by decide
example : ((JSNum.num 100) - (JSNum.num 100) / (JSNum.num 1 + JSNum.inf)).eqv
    (JSNum.num 100) = true := by decide
example : JSNum.truthy (JSNum.num 0) = false := by decide
example : JSNum.nan.gtb (JSNum.num 70) = false := by decide
example : ((JSNum.num 1) / (JSNum.num 3) + (JSNum.num 1) / (JSNum.num 6)).eqv
    ((JSNum.num 1) / (JSNum.num 2)) = true := by decide
example : (JSNum.round2 ((JSNum.num 985) / (JSNum.num 1000))).eqv
    ((JSNum.num 99) / (JSNum.num 100)) = true := by decide

instance : Repr Q := ⟨fun a _ => repr a.n ++ "/" ++ repr a.d⟩

instance : Repr JSNum :=
  ⟨fun x _ =>
    match x with
    | .nan => "NaN"
    | .inf => "Infinity"
    | .ninf => "-Infinity"
    | .num q => repr q⟩

/-- Convert a natural (e.g. a `period` parameter) to the JS number it is in
the source. -/
def JSNum.ofNat (k : ℕ) : JSNum := JSNum.num (Q.ofInt k)

instance : Add Q := ⟨Q.add⟩
instance : Sub Q := ⟨Q.sub⟩
instance : Mul Q := ⟨Q.mul⟩
instance : Neg Q := ⟨Q.neg⟩

/-- JS `Math.floor` on a rational. -/
def Q.floor (a : Q) : ℤ := a.n / (a.d : ℤ)

/-! ## Data model (`§3` of the spec)

A `Bar` is one OHLCV record; dates are integer day numbers (the source
uses ISO `YYYY-MM-DD` strings, ordered and stepped exactly like day
numbers). `open` is a Lean keyword, hence the field name `open_`. -/

structure Bar where
  date : ℤ
  open_ : JSNum
  high : JSNum
  low : JSNum
  close : JSNum
  volume : ℤ
deriving DecidableEq

/-- Output of `mapIndicatorToData`: `{date, value: number|null, price}`. -/
structure IndicatorPoint where
  date : ℤ
  value : Option JSNum
  price : JSNum
deriving DecidableEq

/-- Raw entry of `TechnicalIndicators.MACD.calculate`. -/
structure MacdEntry where
  MACD : JSNum
  signal : JSNum
  histogram : JSNum
deriving DecidableEq

/-- Raw entry of `TechnicalIndicators.BollingerBands.calculate`. -/
structure BollEntry where
  upper : JSNum
  middle : JSNum
  lower : JSNum
deriving DecidableEq

/-- Raw entry of `TechnicalIndicators.Stochastic.calculate`. -/
structure StochEntry where
  k : JSNum
  d : JSNum
deriving DecidableEq

/-- The per-date records returned by `calculateTechnicalIndicator` and
`getMockIndicatorData` (heterogeneous in the JS source, a sum type
here). `simpleR` is the `{date, value}` shape of the mock indicator
path. -/
inductive IndicatorRecord where
  | point (date : ℤ) (value : Option JSNum) (price : JSNum)
  | macdR (date : ℤ) (macd signal histogram : Option JSNum)
  | bollR (date : ℤ) (upper middle lower : Option JSNum) (price : JSNum)
  | stochR (date : ℤ) (k d : Option JSNum)
  | simpleR (date : ℤ) (value : Option JSNum)
deriving DecidableEq

def IndicatorRecord.date : IndicatorRecord → ℤ
  | .point d _ _ => d
  | .macdR d _ _ _ => d
  | .bollR d _ _ _ _ => d
  | .stochR d _ _ => d
  | .simpleR d _ => d

/-- JS property access `.value` (undefined on the other record shapes). -/
def IndicatorRecord.value : IndicatorRecord → Option JSNum
  | .point _ v _ => v
  | .simpleR _ v => v
  | _ => none

/-- JS property access `.macd`. -/
def IndicatorRecord.macdF : IndicatorRecord → Option JSNum
  | .macdR _ m _ _ => m
  | _ => none

/-- JS property access `.signal`. -/
def IndicatorRecord.signalF : IndicatorRecord → Option JSNum
  | .macdR _ _ s _ => s
  | _ => none

/-- JS property access `.histogram`. -/
def IndicatorRecord.histogramF : IndicatorRecord → Option JSNum
  | .macdR _ _ _ h => h
  | _ => none

/-- JS property access `.upper`. -/
def IndicatorRecord.upperF : IndicatorRecord → Option JSNum
  | .bollR _ u _ _ _ => u
  | _ => none

/-- JS property access `.lower`. -/
def IndicatorRecord.lowerF : IndicatorRecord → Option JSNum
  | .bollR _ _ _ l _ => l
  | _ => none

/-! ## Indicator library (`utils/technicalIndicators.js`) -/

namespace TechnicalIndicators

/-- `SMA.calculate({period, values})`: for each `i` from `period-1` to
`values.length-1`, the mean of the trailing window of `period` values. -/
def SMA.calculate (period : ℕ) (values : List JSNum) : List JSNum :=
  (List.range' (period - 1) (values.length - (period - 1))).map (fun i =>
    ((List.range period).foldl (fun sum j => sum + jget values (i - j)) 0) /
      JSNum.ofNat period)

/-- `EMA.calculate({period, values})`: seeded with the SMA of the first
`period` values, then `ema = value*k + prev*(1-k)` with
`k = 2/(period+1)`. -/
def EMA.calculate (period : ℕ) (values : List JSNum) : List JSNum :=
  let multiplier := (2 : JSNum) / (JSNum.ofNat period + 1)
  let seed := ((List.range period).foldl (fun sum i => sum + jget values i) 0) /
      JSNum.ofNat period
  (values.drop period).scanl
    (fun prev c => c * multiplier + prev * ((1 : JSNum) - multiplier)) seed

/-- One Wilder running-average step: `(prev*(period-1) + x)/period`. -/
def wilderAvg (period : ℕ) (prev x : JSNum) : JSNum :=
  (prev * (JSNum.ofNat period - 1) + x) / JSNum.ofNat period

/-- The RSI formula applied to the running averages:
`100 - 100/(1 + avgGain/avgLoss)`. -/
def rsiOf (avgGain avgLoss : JSNum) : JSNum :=
  (100 : JSNum) - (100 : JSNum) / ((1 : JSNum) + avgGain / avgLoss)

/-- The per-delta changes `values[i] - values[i-1]`. -/
def rsiChanges (values : List JSNum) : List JSNum :=
  (values.zip values.tail).map (fun p => p.2 - p.1)

/-- `change > 0 ? change : 0`. -/
def rsiGains (values : List JSNum) : List JSNum :=
  (rsiChanges values).map (fun c => if c.gtb 0 then c else 0)

/-- `change < 0 ? Math.abs(change) : 0`. -/
def rsiLosses (values : List JSNum) : List JSNum :=
  (rsiChanges values).map (fun c => if c.ltb 0 then c.abs else 0)

/-- The seed average: `slice(0, period).reduce(+)/period`. -/
def rsiSeed (period : ℕ) (l : List JSNum) : JSNum :=
  ((l.take period).foldl (fun a b => a + b) 0) / JSNum.ofNat period

/-- One iteration of the RSI loop: Wilder-update both averages and push
the RSI value. -/
def rsiStep (period : ℕ) (st : JSNum × JSNum × List JSNum) (gl : JSNum × JSNum) :
    JSNum × JSNum × List JSNum :=
  let avgGain := wilderAvg period st.1 gl.1
  let avgLoss := wilderAvg period st.2.1 gl.2
  (avgGain, avgLoss, st.2.2 ++ [rsiOf avgGain avgLoss])

/-- `RSI.calculate({values, period})`: deltas split into gains/losses,
seed averages over the first `period` deltas, then Wilder smoothing. -/
def RSI.calculate (period : ℕ) (values : List JSNum) : List JSNum :=
  let gains := rsiGains values
  let losses := rsiLosses values
  (((gains.drop period).zip (losses.drop period)).foldl (rsiStep period)
    (rsiSeed period gains, rsiSeed period losses, ([] : List JSNum))).2.2

/-- `MACD.calculate`: MACD line = fast EMA minus slow EMA aligned at the
slow start, signal line = EMA of the MACD line, histogram = difference. -/
def MACD.calculate (values : List JSNum) (fastPeriod slowPeriod signalPeriod : ℕ) :
    List MacdEntry :=
  let fastEMA := EMA.calculate fastPeriod values
  let slowEMA := EMA.calculate slowPeriod values
  let startIndex := slowPeriod - fastPeriod
  let macdLine := (List.range (fastEMA.length - startIndex)).map
    (fun i => jget fastEMA (i + startIndex) - jget slowEMA i)
  let signalLine := EMA.calculate signalPeriod macdLine
  let signalStartIndex := signalPeriod - 1
  (List.range signalLine.length).map (fun i =>
    let m := jget macdLine (i + signalStartIndex)
    let s := jget signalLine i
    { MACD := m, signal := s, histogram := m - s })

/-- `Math.sqrt`, modelled abstractly: the square root of a rational is in
general irrational, hence not representable in the exact-rational model.
No claim in this development depends on the numeric value of a square
root (only Bollinger band values use it, and no verified statement
inspects them), so the model returns `NaN` for negative input — as JS
does — and an unspecified placeholder (the input itself) otherwise. -/
def jsqrt : JSNum → JSNum
  | .nan => .nan
  | .inf => .inf
  | .ninf => .nan
  | .num q => if q.n < 0 then .nan else .num q

/-- `BollingerBands.calculate({period, values, stdDev})`. -/
def BollingerBands.calculate (period : ℕ) (values : List JSNum) (stdDev : ℕ) :
    List BollEntry :=
  (List.range' (period - 1) (values.length - (period - 1))).map (fun i =>
    let sma := ((List.range period).foldl (fun sum j => sum + jget values (i - j)) 0) /
      JSNum.ofNat period
    let variance := (List.range period).foldl
      (fun v j => v + (jget values (i - j) - sma) * (jget values (i - j) - sma)) 0
    let standardDeviation := jsqrt (variance / JSNum.ofNat period)
    { upper := sma + standardDeviation * JSNum.ofNat stdDev
      middle := sma
      lower := sma - standardDeviation * JSNum.ofNat stdDev })

/-- `Stochastic.calculate({high, low, close, period, signalPeriod})`:
`%K = (close - lowestLow)/(highestHigh - lowestLow)*100` over the
trailing window, `%D` = SMA of `%K`. -/
def Stochastic.calculate (high low close : List JSNum) (period signalPeriod : ℕ) :
    List StochEntry :=
  let kValues := (List.range' (period - 1) (close.length - (period - 1))).map (fun i =>
    let highestHigh := (List.range' 1 (period - 1)).foldl
      (fun hh j => if (jget high (i - j)).gtb hh then jget high (i - j) else hh)
      (jget high i)
    let lowestLow := (List.range' 1 (period - 1)).foldl
      (fun ll j => if (jget low (i - j)).ltb ll then jget low (i - j) else ll)
      (jget low i)
    ((jget close i - lowestLow) / (highestHigh - lowestLow)) * 100)
  let dValues := SMA.calculate signalPeriod kValues
  let dStartIndex := signalPeriod - 1
  (List.range dValues.length).map (fun i =>
    { k := jget kValues (i + dStartIndex), d := jget dValues i })

/-- `ATR.calculate({high, low, close, period})`: true range per step, then
SMA over `period`. -/
def ATR.calculate (high low close : List JSNum) (period : ℕ) : List JSNum :=
  let trueRanges := (List.range' 1 (close.length - 1)).map (fun i =>
    let tr1 := jget high i - jget low i
    let tr2 := (jget high i - jget close (i - 1)).abs
    let tr3 := (jget low i - jget close (i - 1)).abs
    JSNum.jmax (JSNum.jmax tr1 tr2) tr3)
  SMA.calculate period trueRanges

end TechnicalIndicators

/-- Pointwise value equality of two JS-number lists. -/
def eqvList (a b : List JSNum) : Bool :=
  (a.length == b.length) && (a.zip b).all (fun p => p.1.eqv p.2)

/-- Value equality of optional JS numbers (`null` equals only `null`). -/
def oeqv (a b : Option JSNum) : Bool :=
  match a, b with
  | none, none => true
  | some x, some y => x.eqv y
  | _, _ => false

/-- Value equality of two indicator points. -/
def ptEqv (p q : IndicatorPoint) : Bool :=
  (p.date == q.date) && oeqv p.value q.value && p.price.eqv q.price

/-- Pointwise value equality of two indicator-point lists. -/
def ptListEqv (a b : List IndicatorPoint) : Bool :=
  (a.length == b.length) && (a.zip b).all (fun p => ptEqv p.1 p.2)

example : eqvList
    (TechnicalIndicators.SMA.calculate 3
      [JSNum.num 1, JSNum.num 2, JSNum.num 3, JSNum.num 4, JSNum.num 5])
    [JSNum.num 2, JSNum.num 3, JSNum.num 4] = true := by decide
example : eqvList
    (TechnicalIndicators.EMA.calculate 3
      [JSNum.num 1, JSNum.num 2, JSNum.num 3, JSNum.num 4, JSNum.num 5])
    [JSNum.num 2, JSNum.num 3, JSNum.num 4] = true := by decide

/-! ## `services/stockService.js` -/

/-- `getNumDaysFromTimeRange`: fixed range→days table, default `1m`. -/
def getNumDaysFromTimeRange (timeRange : String) : ℕ :=
  match timeRange with
  | "1d" => 1
  | "5d" => 5
  | "1w" => 7
  | "1m" => 30
  | "3m" => 90
  | "6m" => 180
  | "1y" => 365
  | "5y" => 365 * 5
  | "max" => 365 * 10
  | _ => 30

/-- `getBasePrice`: `10 + (sum of char codes of symbol) % 490`. -/
def getBasePrice (symbol : String) : ℕ :=
  10 + (symbol.toList.map Char.toNat).sum % 490

/-- `if (basePrice < 1) basePrice = 1` — the price floor of the mock
walk. -/
def clampBase (x : Q) : Q := if x.blt 1 then (1 : Q) else x

/-- The walking base price after the `±2%` step of iteration `k`
(`basePrice += basePrice * 0.02 * (Math.random() - 0.5)`, then the
clamp); the ambient `Math.random()` stream is modelled as `rand`,
consumed five draws per bar, each assumed in `[0,1)`. -/
def mockOpen (rand : ℕ → Q) (k : ℕ) (basePrice : Q) : Q :=
  clampBase (basePrice + basePrice * ⟨2, 100, by norm_num⟩ *
    (rand (5 * k) - ⟨1, 2, by norm_num⟩))

/-- `high = open * (1 + Math.random() * 0.015)`. -/
def mockHigh (rand : ℕ → Q) (k : ℕ) (op : Q) : Q :=
  op * ((1 : Q) + rand (5 * k + 1) * ⟨15, 1000, by norm_num⟩)

/-- `low = open * (1 - Math.random() * 0.015)`. -/
def mockLow (rand : ℕ → Q) (k : ℕ) (op : Q) : Q :=
  op * ((1 : Q) - rand (5 * k + 2) * ⟨15, 1000, by norm_num⟩)

/-- `close = low + Math.random() * (high - low)`. -/
def mockClose (rand : ℕ → Q) (k : ℕ) (op : Q) : Q :=
  mockLow rand k op + rand (5 * k + 3) * (mockHigh rand k op - mockLow rand k op)

/-- One iteration of the `getMockStockData` loop (iteration `k` of
`numDays + 1`, producing the bar dated `numDays - k` days ago). Returns
the updated walking base price and the bar. -/
def mockBar (rand : ℕ → Q) (today : ℤ) (numDays k : ℕ) (basePrice : Q) : Q × Bar :=
  let op := mockOpen rand k basePrice
  (op,
    { date := today - (numDays : ℤ) + (k : ℤ)
      open_ := JSNum.num (op.roundTo 2)
      high := JSNum.num ((mockHigh rand k op).roundTo 2)
      low := JSNum.num ((mockLow rand k op).roundTo 2)
      close := JSNum.num ((mockClose rand k op).roundTo 2)
      volume := (rand (5 * k + 4) * (10000000 : Q)).floor + 500000 })

/-- The `getMockStockData` loop: `n` remaining iterations, `k` the
current iteration index, `bp` the walking base price. -/
def mockBars (rand : ℕ → Q) (today : ℤ) (numDays : ℕ) : ℕ → ℕ → Q → List Bar
  | 0, _, _ => []
  | n + 1, k, bp =>
    let r := mockBar rand today numDays k bp
    r.2 :: mockBars rand today numDays n (k + 1) r.1

/-- `getMockStockData(symbol, timeRange)`: `numDays + 1` synthetic daily
bars ending today, started from `getBasePrice(symbol)`. -/
def getMockStockData (rand : ℕ → Q) (today : ℤ) (symbol timeRange : String) :
    List Bar :=
  let numDays := getNumDaysFromTimeRange timeRange
  mockBars rand today numDays (numDays + 1) 0 (Q.ofInt (getBasePrice symbol))

/-- `mapIndicatorToData(historicalData, indicatorValues, period)`:
align indicator values at offset `period - 1`; a zero/`NaN`/missing
indicator value maps to `null` (the JS code tests
`indicatorValues[indicatorIndex]` for truthiness; a negative JS index
reads `undefined`, which is falsy). -/
def mapIndicatorToData (historicalData : List Bar) (indicatorValues : List JSNum)
    (period : ℕ) : List IndicatorPoint :=
  mapWithIndex (fun index dataPoint =>
    { date := dataPoint.date
      value :=
        if period - 1 ≤ index then
          match indicatorValues.get? (index - (period - 1)) with
          | some v => if v.truthy then some v.round4 else none
          | none => none
        else none
      price := dataPoint.close }) 0 historicalData

/-- `toLowerCase()` restricted to ASCII letters, as a kernel-computable
function (the indicator names the service compares against are ASCII). -/
def lowerChar (c : Char) : Char :=
  match c with
  | 'A' => 'a' | 'B' => 'b' | 'C' => 'c' | 'D' => 'd' | 'E' => 'e' | 'F' => 'f'
  | 'G' => 'g' | 'H' => 'h' | 'I' => 'i' | 'J' => 'j' | 'K' => 'k' | 'L' => 'l'
  | 'M' => 'm' | 'N' => 'n' | 'O' => 'o' | 'P' => 'p' | 'Q' => 'q' | 'R' => 'r'
  | 'S' => 's' | 'T' => 't' | 'U' => 'u' | 'V' => 'v' | 'W' => 'w' | 'X' => 'x'
  | 'Y' => 'y' | 'Z' => 'z'
  | _ => c

/-- JS `indicator.toLowerCase()` (ASCII range). -/
def jsToLower (s : String) : String := ⟨s.data.map lowerChar⟩

/-- A single-valued branch of `calculateTechnicalIndicator`: the
`mapIndicatorToData` result as per-date records. -/
def singleRecords (historicalData : List Bar) (vals : List JSNum) (period : ℕ) :
    List IndicatorRecord :=
  (mapIndicatorToData historicalData vals period).map
    (fun pt => .point pt.date pt.value pt.price)

/-- The MACD branch of `calculateTechnicalIndicator`: each date maps to
`macd[index - 25]`, with every field rounded to 4 decimals, or to three
nulls (a negative JS index reads `undefined`, which is falsy). -/
def macdRecords (historicalData : List Bar) : List IndicatorRecord :=
  let macd := TechnicalIndicators.MACD.calculate (historicalData.map Bar.close) 12 26 9
  mapWithIndex (fun index dataPoint =>
    match (if 25 ≤ index then macd.get? (index - 25) else none) with
    | some e => .macdR dataPoint.date (some e.MACD.round4) (some e.signal.round4)
        (some e.histogram.round4)
    | none => .macdR dataPoint.date none none none) 0 historicalData

/-- The Bollinger branch of `calculateTechnicalIndicator`
(`bb[index - 19]`, rounded to 2 decimals). -/
def bollingerRecords (historicalData : List Bar) : List IndicatorRecord :=
  let bb := TechnicalIndicators.BollingerBands.calculate 20
    (historicalData.map Bar.close) 2
  mapWithIndex (fun index dataPoint =>
    match (if 19 ≤ index then bb.get? (index - 19) else none) with
    | some e => .bollR dataPoint.date (some e.upper.round2) (some e.middle.round2)
        (some e.lower.round2) dataPoint.close
    | none => .bollR dataPoint.date none none none dataPoint.close) 0 historicalData

/-- The Stochastic branch of `calculateTechnicalIndicator`
(`stoch[index - 13]`, rounded to 2 decimals). -/
def stochasticRecords (historicalData : List Bar) : List IndicatorRecord :=
  let stoch := TechnicalIndicators.Stochastic.calculate
    (historicalData.map Bar.high) (historicalData.map Bar.low)
    (historicalData.map Bar.close) 14 3
  mapWithIndex (fun index dataPoint =>
    match (if 13 ≤ index then stoch.get? (index - 13) else none) with
    | some e => .stochR dataPoint.date (some e.k.round2) (some e.d.round2)
    | none => .stochR dataPoint.date none none) 0 historicalData

/-- `calculateTechnicalIndicator(historicalData, indicator)`: dispatch on
the lowercased indicator name; unknown names throw
`Unsupported indicator: ...` (modelled as `Except.error`). -/
def calculateTechnicalIndicator (historicalData : List Bar) (indicator : String) :
    Except String (List IndicatorRecord) :=
  let closes := historicalData.map Bar.close
  let highs := historicalData.map Bar.high
  let lows := historicalData.map Bar.low
  match jsToLower indicator with
  | "sma" | "sma20" =>
    .ok (singleRecords historicalData (TechnicalIndicators.SMA.calculate 20 closes) 20)
  | "sma50" =>
    .ok (singleRecords historicalData (TechnicalIndicators.SMA.calculate 50 closes) 50)
  | "ema" | "ema12" =>
    .ok (singleRecords historicalData (TechnicalIndicators.EMA.calculate 12 closes) 12)
  | "ema26" =>
    .ok (singleRecords historicalData (TechnicalIndicators.EMA.calculate 26 closes) 26)
  | "macd" => .ok (macdRecords historicalData)
  | "rsi" =>
    .ok (singleRecords historicalData (TechnicalIndicators.RSI.calculate 14 closes) 14)
  | "bollinger" | "bb" => .ok (bollingerRecords historicalData)
  | "stochastic" => .ok (stochasticRecords historicalData)
  | "atr" =>
    .ok (singleRecords historicalData
      (TechnicalIndicators.ATR.calculate highs lows closes 14) 14)
  | _ => .error ("Unsupported indicator: " ++ indicator)

/-- `getMockIndicatorData(symbol, indicator, timeRange)`: synthetic stock
data, then a 14-day SMA when the indicator is exactly `'sma'`, otherwise
random values near the close. `rand` drives the synthetic bars, `rand2`
the per-point random factors (both model the ambient `Math.random`). -/
def getMockIndicatorData (rand rand2 : ℕ → Q) (today : ℤ)
    (symbol indicator timeRange : String) : List IndicatorRecord :=
  let stockData := getMockStockData rand today symbol timeRange
  if indicator = "sma" then
    -- period = 14
    mapWithIndex (fun index dataPoint =>
      if index < 14 - 1 then .simpleR dataPoint.date none
      else
        let sum := (List.range 14).foldl
          (fun s i => s + jget (stockData.map Bar.close) (index - i)) 0
        .simpleR dataPoint.date (some ((sum / JSNum.ofNat 14).round2)))
      0 stockData
  else
    mapWithIndex (fun index dataPoint =>
      .simpleR dataPoint.date
        (some ((dataPoint.close *
          JSNum.num (⟨8, 10, by norm_num⟩ + rand2 index * ⟨4, 10, by norm_num⟩)).round2)))
      0 stockData

/-- The ambient configuration and collaborators of the stock service:
the `USE_LIVE_DATA` switch, the optional Alpha Vantage credential, the
outcomes of the two live providers, the cache contents at the time of
the call, the `Math.random` stream and today's date. -/
structure FetchEnv where
  useLiveData : Bool
  alphaVantageApiKey : Option String
  yahoo : String → String → Except String (List Bar)
  alphaVantage : String → String → Except String (List Bar)
  cacheStock : String → Option (List Bar)
  cacheIndicator : String → Option (List IndicatorRecord)
  rand : ℕ → Q
  rand2 : ℕ → Q
  today : ℤ

/-- `getStockData(symbol, timeRange)`: cache hit, else Yahoo, else Alpha
Vantage (only with a configured key), else the synthetic generator.
Every provider failure is caught; the mock path is total, so the
function only propagates an error thrown outside the provider chain
(none in this model). -/
def getStockData (env : FetchEnv) (symbol timeRange : String) :
    Except String (List Bar) :=
  match env.cacheStock ("stock_" ++ symbol ++ "_" ++ timeRange) with
  | some cachedData => .ok cachedData
  | none =>
    if env.useLiveData then
      match env.yahoo symbol timeRange with
      | .ok d => .ok d
      | .error _ =>
        match env.alphaVantageApiKey with
        | some _ =>
          match env.alphaVantage symbol timeRange with
          | .ok d => .ok d
          | .error _ => .ok (getMockStockData env.rand env.today symbol timeRange)
        | none => .ok (getMockStockData env.rand env.today symbol timeRange)
    else .ok (getMockStockData env.rand env.today symbol timeRange)

/-- `getStockIndicator(symbol, indicator, timeRange)`: cache hit, else
fetch the series, then compute the indicator; any computation failure
(including the `Unsupported indicator` throw) is caught and silently
replaced by `getMockIndicatorData`. -/
def getStockIndicator (env : FetchEnv) (symbol indicator timeRange : String) :
    Except String (List IndicatorRecord) :=
  match env.cacheIndicator
      ("indicator_" ++ symbol ++ "_" ++ indicator ++ "_" ++ timeRange) with
  | some cachedData => .ok cachedData
  | none =>
    match getStockData env symbol timeRange with
    | .error _ => .error ("Failed to fetch indicator data for " ++ symbol)
    | .ok historicalData =>
      if historicalData.isEmpty then
        .error ("Failed to fetch indicator data for " ++ symbol)
      else
        .ok (if env.useLiveData then
          match calculateTechnicalIndicator historicalData indicator with
          | .ok d => d
          | .error _ =>
            getMockIndicatorData env.rand env.rand2 env.today symbol indicator timeRange
        else getMockIndicatorData env.rand env.rand2 env.today symbol indicator timeRange)

/-- A trading signal, as produced by `generateTradingSignals` (the JS
object `{type, signal, strength, description}`). -/
structure Signal where
  type : String
  signal : String
  strength : String
  description : String
deriving DecidableEq

/-- Render an integer as a decimal string. -/
def intToString (z : ℤ) : String :=
  (if z < 0 then "-" else "") ++ toString z.natAbs

/-- `x.toFixed(2)` as a string, for the interpolated signal
descriptions. -/
def ratToFixed2String (a : Q) : String :=
  let r := (2 * a.n * 100 + (a.d : ℤ)) / (2 * (a.d : ℤ))
  (if r < 0 then "-" else "") ++ toString (r.natAbs / 100) ++ "." ++
    (if r.natAbs % 100 < 10 then "0" else "") ++ toString (r.natAbs % 100)

/-- `x.toFixed(2)` on a JS number. -/
def JSNum.toFixed2 : JSNum → String
  | .nan => "NaN"
  | .inf => "Infinity"
  | .ninf => "-Infinity"
  | .num q => ratToFixed2String q

/-- The indicator bundle handed to `generateTradingSignals` by
`getTechnicalAnalysis`. -/
structure IndicatorsBundle where
  sma20 : List IndicatorRecord
  sma50 : List IndicatorRecord
  ema12 : List IndicatorRecord
  ema26 : List IndicatorRecord
  rsi : List IndicatorRecord
  macd : List IndicatorRecord
  bb : List IndicatorRecord

/-- `array[array.length - 1]?.value`. -/
def latestValue (l : List IndicatorRecord) : Option JSNum :=
  l.getLast?.bind IndicatorRecord.value

/-- JS truthiness of a possibly-null number. -/
def otruthy : Option JSNum → Bool
  | none => false
  | some v => v.truthy

/-- JS `x > 0` where `x` may be `null` (`null > 0` is false). -/
def ogtbZero : Option JSNum → Bool
  | none => false
  | some v => v.gtb 0

/-- JS `x < 0` where `x` may be `null` (`null < 0` is false). -/
def oltbZero : Option JSNum → Bool
  | none => false
  | some v => v.ltb 0

def goldenCrossSignal : Signal :=
  ⟨"BUY", "Golden Cross Pattern", "Strong", "Price above SMA20, SMA20 above SMA50"⟩

def deathCrossSignal : Signal :=
  ⟨"SELL", "Death Cross Pattern", "Strong", "Price below SMA20, SMA20 below SMA50"⟩

def rsiOverboughtSignal (v : JSNum) : Signal :=
  ⟨"SELL", "RSI Overbought", "Medium",
    "RSI at " ++ v.toFixed2 ++ " indicates overbought conditions"⟩

def rsiOversoldSignal (v : JSNum) : Signal :=
  ⟨"BUY", "RSI Oversold", "Medium",
    "RSI at " ++ v.toFixed2 ++ " indicates oversold conditions"⟩

def macdBullishSignal : Signal :=
  ⟨"BUY", "MACD Bullish", "Medium", "MACD line above signal line with positive histogram"⟩

def macdBearishSignal : Signal :=
  ⟨"SELL", "MACD Bearish", "Medium", "MACD line below signal line with negative histogram"⟩

def bollingerUpperSignal : Signal :=
  ⟨"SELL", "Bollinger Upper Breach", "Medium", "Price above upper Bollinger Band"⟩

def bollingerLowerSignal : Signal :=
  ⟨"BUY", "Bollinger Lower Breach", "Medium", "Price below lower Bollinger Band"⟩

/-- The moving-average block of `generateTradingSignals`:
`if (latestSMA20 && latestSMA50)`, then the two chained cross tests. -/
def maSignals (currentPrice : JSNum) (latestSMA20 latestSMA50 : Option JSNum) :
    List Signal :=
  match latestSMA20, latestSMA50 with
  | some v20, some v50 =>
    if v20.truthy && v50.truthy then
      if currentPrice.gtb v20 && v20.gtb v50 then [goldenCrossSignal]
      else if currentPrice.ltb v20 && v20.ltb v50 then [deathCrossSignal]
      else []
    else []
  | _, _ => []

/-- The RSI block of `generateTradingSignals`: `if (latestRSI)`, then the
threshold tests. -/
def rsiSignals (latestRSI : Option JSNum) : List Signal :=
  match latestRSI with
  | some v =>
    if v.truthy then
      if v.gtb 70 then [rsiOverboughtSignal v]
      else if v.ltb 30 then [rsiOversoldSignal v]
      else []
    else []
  | none => []

/-- The MACD block of `generateTradingSignals`:
`if (latestMACD && latestMACD.macd && latestMACD.signal)`, then the
momentum tests (in which a `null` histogram compares as `0`). -/
def macdSignals (latestMACD : Option IndicatorRecord) : List Signal :=
  match latestMACD with
  | none => []
  | some r =>
    if otruthy r.macdF && otruthy r.signalF then
      match r.macdF, r.signalF with
      | some m, some s =>
        if m.gtb s && ogtbZero r.histogramF then [macdBullishSignal]
        else if m.ltb s && oltbZero r.histogramF then [macdBearishSignal]
        else []
      | _, _ => []
    else []

/-- The Bollinger block of `generateTradingSignals`. -/
def bbSignals (currentPrice : JSNum) (latestBB : Option IndicatorRecord) :
    List Signal :=
  match latestBB with
  | none => []
  | some r =>
    if otruthy r.upperF && otruthy r.lowerF then
      match r.upperF, r.lowerF with
      | some u, some l =>
        if currentPrice.gtb u then [bollingerUpperSignal]
        else if currentPrice.ltb l then [bollingerLowerSignal]
        else []
      | _, _ => []
    else []

/-- `historicalData[historicalData.length - 1].close` (the JS code would
throw on an empty series; the claims only use non-empty data). -/
def lastClose (historicalData : List Bar) : JSNum :=
  match historicalData.getLast? with
  | some b => b.close
  | none => JSNum.nan

/-- `generateTradingSignals(historicalData, indicators)`: the four rule
blocks evaluated in order against the latest values; each pushes its
signals onto one shared list. -/
def generateTradingSignals (historicalData : List Bar) (ind : IndicatorsBundle) :
    List Signal :=
  let currentPrice := lastClose historicalData
  maSignals currentPrice (latestValue ind.sma20) (latestValue ind.sma50) ++
    rsiSignals (latestValue ind.rsi) ++
    macdSignals ind.macd.getLast? ++
    bbSignals currentPrice ind.bb.getLast?

/-! ## Lemmas about the synthetic generator -/

@[simp] theorem Q.toRat_one : (1 : Q).toRat = 1 := by
  show (Q.ofInt 1).toRat = 1
  simp

@[simp] theorem Q.toRat_zero : (0 : Q).toRat = 0 := by
  show (Q.ofInt 0).toRat = 0
  simp

@[simp] theorem Q.toRat_add' (a b : Q) : (a + b).toRat = a.toRat + b.toRat :=
  Q.toRat_add a b

@[simp] theorem Q.toRat_mul' (a b : Q) : (a * b).toRat = a.toRat * b.toRat :=
  Q.toRat_mul a b

@[simp] theorem Q.toRat_sub' (a b : Q) : (a - b).toRat = a.toRat - b.toRat :=
  Q.toRat_sub a b

@[simp] theorem Q.toRat_neg' (a : Q) : (-a).toRat = -a.toRat :=
  Q.toRat_neg a

theorem clampBase_one_le (x : Q) : (1 : ℚ) ≤ (clampBase x).toRat := by
  unfold clampBase
  by_cases h : x.blt 1 = true
  · simp [h]
  · have h2 : ¬ x.toRat < (1 : Q).toRat := fun hc => h ((Q.blt_iff x 1).mpr hc)
    rw [Q.toRat_one] at h2
    simp only [h, Bool.false_eq_true, if_false]
    linarith [not_lt.mp h2]

theorem mockOpen_one_le (rand : ℕ → Q) (k : ℕ) (bp : Q) :
    (1 : ℚ) ≤ (mockOpen rand k bp).toRat := clampBase_one_le _

theorem ratRoundTo2_pos (x : ℚ) (h : 985/1000 ≤ x) : 0 < ratRoundTo 2 x := by
  unfold ratRoundTo
  apply div_pos _ (by norm_num)
  have h99 : (99 : ℤ) ≤ round (x * 10 ^ 2) := by
    rw [round_eq]
    apply Int.le_floor.mpr
    push_cast
    nlinarith
  have : (99 : ℚ) ≤ (round (x * 10 ^ 2) : ℚ) := by exact_mod_cast h99
  linarith

theorem mockClose_ge (rand : ℕ → Q) (k : ℕ) (op : Q)
    (hop : (1 : ℚ) ≤ op.toRat)
    (hr : ∀ i, 0 ≤ (rand i).toRat ∧ (rand i).toRat < 1) :
    985/1000 ≤ (mockClose rand k op).toRat := by
  obtain ⟨h1a, h1b⟩ := hr (5 * k + 1)
  obtain ⟨h2a, h2b⟩ := hr (5 * k + 2)
  obtain ⟨h3a, h3b⟩ := hr (5 * k + 3)
  have hc : ((⟨15, 1000, by norm_num⟩ : Q)).toRat = 15/1000 := by
    unfold Q.toRat
    norm_num
  have hopo : (0 : ℚ) ≤ op.toRat := le_trans zero_le_one hop
  unfold mockClose mockHigh mockLow
  simp only [Q.toRat_add', Q.toRat_mul', Q.toRat_sub', Q.toRat_one, hc]
  have hfac : (985/1000 : ℚ) ≤ 1 - (rand (5 * k + 2)).toRat * (15/1000) := by
    nlinarith
  have hlo : (985/1000 : ℚ) ≤ op.toRat * (1 - (rand (5 * k + 2)).toRat * (15/1000)) := by
    calc (985/1000 : ℚ) = 1 * (985/1000) := by norm_num
    _ ≤ op.toRat * (1 - (rand (5 * k + 2)).toRat * (15/1000)) :=
        mul_le_mul hop hfac (by norm_num) hopo
  have hdelta : (0 : ℚ) ≤ op.toRat * (1 + (rand (5 * k + 1)).toRat * (15/1000))
      - op.toRat * (1 - (rand (5 * k + 2)).toRat * (15/1000)) := by
    nlinarith
  nlinarith [mul_nonneg h3a hdelta]

theorem mockBar_close_pos (rand : ℕ → Q) (today : ℤ) (numDays k : ℕ) (bp : Q)
    (hr : ∀ i, 0 ≤ (rand i).toRat ∧ (rand i).toRat < 1) :
    ∃ q, (mockBar rand today numDays k bp).2.close = JSNum.num q ∧ 0 < q.toRat := by
  refine ⟨_, rfl, ?_⟩
  rw [Q.toRat_roundTo]
  exact ratRoundTo2_pos _ (mockClose_ge rand k _ (mockOpen_one_le rand k bp) hr)

theorem mockBars_length (rand : ℕ → Q) (today : ℤ) (numDays : ℕ) :
    ∀ n k bp, (mockBars rand today numDays n k bp).length = n
  | 0, _, _ => rfl
  | n + 1, k, bp => by
    simp [mockBars, mockBars_length rand today numDays n]

theorem mockBars_date (rand : ℕ → Q) (today : ℤ) (numDays : ℕ) :
    ∀ n k bp j, j < n →
      ((mockBars rand today numDays n k bp).get? j).map Bar.date
        = some (today - (numDays : ℤ) + (k : ℤ) + (j : ℤ))
  | 0, _, _, j, h => absurd h (Nat.not_lt_zero j)
  | n + 1, k, bp, 0, _ => by
    simp [mockBars, mockBar]
  | n + 1, k, bp, j + 1, h => by
    have ih := mockBars_date rand today numDays n (k + 1)
      ((mockBar rand today numDays k bp).1) j (by omega)
    simp only [mockBars, List.get?_cons_succ]
    rw [ih]
    congr 1
    push_cast
    ring

theorem mockBars_close_pos (rand : ℕ → Q) (today : ℤ) (numDays : ℕ)
    (hr : ∀ i, 0 ≤ (rand i).toRat ∧ (rand i).toRat < 1) :
    ∀ n k bp, ∀ b ∈ mockBars rand today numDays n k bp,
      ∃ q, b.close = JSNum.num q ∧ 0 < q.toRat
  | 0, _, _, b, hb => absurd hb (List.not_mem_nil b)
  | n + 1, k, bp, b, hb => by
    rcases List.mem_cons.mp hb with h | h
    · subst h
      exact mockBar_close_pos rand today numDays k bp hr
    · exact mockBars_close_pos rand today numDays hr n (k + 1) _ b h

theorem getMockStockData_length (rand : ℕ → Q) (today : ℤ)
    (symbol timeRange : String) :
    (getMockStockData rand today symbol timeRange).length =
      getNumDaysFromTimeRange timeRange + 1 := by
  unfold getMockStockData
  exact mockBars_length _ _ _ _ _ _

/-! ## Claim theorems: provider fallback and synthetic generator -/

/-- C2: if the cache misses, live data is enabled, the primary (Yahoo)
provider throws, and no Alpha Vantage credential is configured, then
`getStockData(symbol, '1m')` does not raise: it returns the synthetic
series, which is non-empty and has exactly 31 bars. -/
theorem C2_fetch_degrades_to_mock (env : FetchEnv) (symbol msg : String)
    (hlive : env.useLiveData = true)
    (hyahoo : env.yahoo symbol "1m" = .error msg)
    (hkey : env.alphaVantageApiKey = none)
    (hcache : env.cacheStock ("stock_" ++ symbol ++ "_" ++ "1m") = none) :
    getStockData env symbol "1m" =
      .ok (getMockStockData env.rand env.today symbol "1m") ∧
    (getMockStockData env.rand env.today symbol "1m").length = 31 ∧
    getMockStockData env.rand env.today symbol "1m" ≠ [] := by
  have hlen : (getMockStockData env.rand env.today symbol "1m").length = 31 := by
    rw [getMockStockData_length]
    decide
  refine ⟨?_, hlen, ?_⟩
  · unfold getStockData
    rw [hcache, hlive, hyahoo, hkey]
    rfl
  · intro hnil
    rw [hnil] at hlen
    simp at hlen

/-- Witness for C2 at a concrete environment whose primary provider
throws and which has no secondary credential. -/
theorem C2_fetch_degrades_to_mock_witness :
    getStockData
      { useLiveData := true
        alphaVantageApiKey := none
        yahoo := fun _ _ => .error "network failure"
        alphaVantage := fun _ _ => .error "no key"
        cacheStock := fun _ => none
        cacheIndicator := fun _ => none
        rand := fun _ => ⟨1, 2, by norm_num⟩
        rand2 := fun _ => ⟨1, 2, by norm_num⟩
        today := 0 } "X" "1m" =
      .ok (getMockStockData (fun _ => ⟨1, 2, by norm_num⟩) 0 "X" "1m") :=
  (C2_fetch_degrades_to_mock _ "X" "network failure" rfl rfl rfl rfl).1

/-- C8: `getMockStockData('AAPL','1m')` always yields exactly 31 bars;
every close is a positive number; dates advance by exactly one day;
and any two calls (any random draws, any day) yield equal lengths. -/
theorem C8_mock_shape (r1 r2 : ℕ → Q) (t1 t2 : ℤ)
    (hr : ∀ i, 0 ≤ (r1 i).toRat ∧ (r1 i).toRat < 1) :
    (getMockStockData r1 t1 "AAPL" "1m").length = 31 ∧
    (getMockStockData r2 t2 "AAPL" "1m").length =
      (getMockStockData r1 t1 "AAPL" "1m").length ∧
    (∀ b ∈ getMockStockData r1 t1 "AAPL" "1m",
      ∃ q, b.close = JSNum.num q ∧ 0 < q.toRat) ∧
    (∀ j, j < 31 →
      ((getMockStockData r1 t1 "AAPL" "1m").get? j).map Bar.date
        = some (t1 - 30 + (j : ℤ))) := by
  have hlen1 : (getMockStockData r1 t1 "AAPL" "1m").length = 31 := by
    rw [getMockStockData_length]
    decide
  have hlen2 : (getMockStockData r2 t2 "AAPL" "1m").length = 31 := by
    rw [getMockStockData_length]
    decide
  refine ⟨hlen1, by rw [hlen1, hlen2], ?_, ?_⟩
  · intro b hb
    exact mockBars_close_pos r1 t1 30 hr 31 0 _ b hb
  · intro j hj
    have h := mockBars_date r1 t1 30 31 0 (Q.ofInt (getBasePrice "AAPL")) j hj
    unfold getMockStockData
    have hnum : getNumDaysFromTimeRange "1m" = 30 := by decide
    rw [hnum]
    rw [h]
    congr 1
    push_cast
    ring

/-- Witness for C8 at concrete random streams. -/
theorem C8_mock_shape_witness :
    (getMockStockData (fun _ => ⟨1, 2, by norm_num⟩) 0 "AAPL" "1m").length = 31 :=
  (C8_mock_shape (fun _ => ⟨1, 2, by norm_num⟩) (fun _ => ⟨1, 3, by norm_num⟩) 0 5
    (fun _ => by constructor <;> norm_num [Q.toRat])).1

/-- A bar with integer fields, for concrete test inputs. -/
def intBar (d o h l c : ℤ) : Bar :=
  ⟨d, JSNum.num (Q.ofInt o), JSNum.num (Q.ofInt h), JSNum.num (Q.ofInt l),
    JSNum.num (Q.ofInt c), 0⟩

/-! ## Claim theorems: signal generator -/

/-- C4: with defined (truthy) latest SMA20/SMA50/RSI values, price >
SMA20 > SMA50 emits the Strong BUY golden-cross signal and RSI > 70
emits the Medium SELL overbought signal; the four rule blocks are
independent and concatenated in the fixed order MA-cross, RSI, MACD,
Bollinger, so both signals appear together, in that order, ahead of any
MACD/Bollinger signals. -/
theorem C4_signal_rules (data : List Bar) (ind : IndicatorsBundle)
    (v20 v50 vr : JSNum)
    (h20 : latestValue ind.sma20 = some v20)
    (h50 : latestValue ind.sma50 = some v50)
    (hrsi : latestValue ind.rsi = some vr)
    (h20t : v20.truthy = true) (h50t : v50.truthy = true) (hrt : vr.truthy = true)
    (hgc1 : (lastClose data).gtb v20 = true) (hgc2 : v20.gtb v50 = true)
    (hov : vr.gtb 70 = true) :
    generateTradingSignals data ind =
      goldenCrossSignal :: rsiOverboughtSignal vr ::
        (macdSignals ind.macd.getLast? ++
          bbSignals (lastClose data) ind.bb.getLast?) := by
  unfold generateTradingSignals
  rw [h20, h50, hrsi]
  unfold maSignals rsiSignals
  simp [h20t, h50t, hrt, hgc1, hgc2, hov]

/-- Witness for C4: price 100, SMA20 95, SMA50 90, RSI 75 produce
exactly the golden-cross and overbought signals, in that order. -/
theorem C4_signal_rules_witness :
    generateTradingSignals [intBar 0 100 100 100 100]
      { sma20 := [.point 0 (some (JSNum.num 95)) (JSNum.num 100)]
        sma50 := [.point 0 (some (JSNum.num 90)) (JSNum.num 100)]
        ema12 := []
        ema26 := []
        rsi := [.point 0 (some (JSNum.num 75)) (JSNum.num 100)]
        macd := []
        bb := [] } =
      [goldenCrossSignal, rsiOverboughtSignal (JSNum.num 75)] := by
  have h := C4_signal_rules [intBar 0 100 100 100 100]
    { sma20 := [.point 0 (some (JSNum.num 95)) (JSNum.num 100)]
      sma50 := [.point 0 (some (JSNum.num 90)) (JSNum.num 100)]
      ema12 := []
      ema26 := []
      rsi := [.point 0 (some (JSNum.num 75)) (JSNum.num 100)]
      macd := []
      bb := [] } (JSNum.num 95) (JSNum.num 90) (JSNum.num 75)
    rfl rfl rfl (by decide) (by decide) (by decide) (by decide) (by decide)
    (by decide)
  rw [h]
  rfl

/-- C9: a computed indicator value of exactly 0 is stored as `null` by
`mapIndicatorToData` (truthiness test), indistinguishable from warm-up;
and the signal rules treat a latest value of 0 as absent: the MA-cross
block and the RSI block both emit nothing. -/
theorem C9_zero_treated_as_null (data : List Bar) (vals : List JSNum) (p i : ℕ)
    (b : Bar) (v : JSNum)
    (hb : data.get? i = some b)
    (hwarm : p - 1 ≤ i)
    (hv : vals.get? (i - (p - 1)) = some v)
    (hz : v.val = some 0)
    (price : JSNum) (o50 : Option JSNum) :
    (mapIndicatorToData data vals p).get? i = some ⟨b.date, none, b.close⟩ ∧
    maSignals price (some v) o50 = [] ∧
    rsiSignals (some v) = [] := by
  have htr : v.truthy = false := by
    cases v with
    | num q =>
      have hq : q.toRat = 0 := by
        simpa [JSNum.val] using hz
      have : q.isZero = true := (Q.isZero_iff q).mpr hq
      simp [JSNum.truthy, this]
    | nan => rfl
    | inf => simp [JSNum.val] at hz
    | ninf => simp [JSNum.val] at hz
  refine ⟨?_, ?_, ?_⟩
  · unfold mapIndicatorToData
    rw [get?_mapWithIndex, hb]
    simp only [Option.map_some', Nat.zero_add]
    rw [if_pos hwarm, hv]
    simp [htr]
  · unfold maSignals
    cases o50 <;> simp [htr]
  · unfold rsiSignals
    simp [htr]

/-- Witness for C9 at a one-bar input with indicator value 0. -/
theorem C9_zero_treated_as_null_witness :
    (mapIndicatorToData [intBar 7 1 1 1 2] [JSNum.num 0] 1).get? 0 =
      some ⟨7, none, JSNum.num (Q.ofInt 2)⟩ ∧
    maSignals (JSNum.num 3) (some (JSNum.num 0)) (some (JSNum.num 1)) = [] ∧
    rsiSignals (some (JSNum.num 0)) = [] :=
  C9_zero_treated_as_null [intBar 7 1 1 1 2] [JSNum.num 0] 1 0
    (intBar 7 1 1 1 2) (JSNum.num 0) rfl (by norm_num) rfl
    (by simp [JSNum.val]) (JSNum.num 3) (some (JSNum.num 1))

/-! ## Claim theorems: unsupported indicator, Stochastic zero range -/

instance {ε α : Type} [DecidableEq ε] [DecidableEq α] : DecidableEq (Except ε α) :=
  fun a b =>
    match a, b with
    | .ok x, .ok y =>
      match decEq x y with
      | isTrue h => isTrue (by rw [h])
      | isFalse h => isFalse (fun hc => h (Except.ok.inj hc))
    | .error x, .error y =>
      match decEq x y with
      | isTrue h => isTrue (by rw [h])
      | isFalse h => isFalse (fun hc => h (Except.error.inj hc))
    | .ok _, .error _ => isFalse (fun h => Except.noConfusion h)
    | .error _, .ok _ => isFalse (fun h => Except.noConfusion h)

def c6Bars : List Bar := [intBar 0 1 1 1 1]

/-- A concrete environment: live data on, no secondary credential, the
series for any symbol already cached. -/
def c6Env : FetchEnv :=
  { useLiveData := true
    alphaVantageApiKey := none
    yahoo := fun _ _ => .error "unused"
    alphaVantage := fun _ _ => .error "unused"
    cacheStock := fun _ => some c6Bars
    cacheIndicator := fun _ => none
    rand := fun _ => ⟨1, 2, by norm_num⟩
    rand2 := fun _ => ⟨1, 2, by norm_num⟩
    today := 0 }

/-- C6 (bug evidence): `calculateTechnicalIndicator` does produce the
`Unsupported indicator` error result for an unknown name, but
`getStockIndicator` catches it and silently substitutes the synthetic
indicator series (here 31 random-valued points) — the caller receives
`ok` data, not a client-input error. -/
theorem C6_unsupported_indicator_substituted :
    calculateTechnicalIndicator c6Bars "foo" =
      .error "Unsupported indicator: foo" ∧
    getStockIndicator c6Env "AAPL" "foo" "1m" =
      .ok (getMockIndicatorData c6Env.rand c6Env.rand2 c6Env.today
        "AAPL" "foo" "1m") ∧
    (getMockIndicatorData c6Env.rand c6Env.rand2 c6Env.today
      "AAPL" "foo" "1m").length = 31 := by
  refine ⟨by decide, by decide, by decide⟩

def c7FlatBars : List Bar := (List.range 16).map (fun (i : ℕ) => intBar (i : ℤ) 5 5 5 5)

def c7AboveBars : List Bar := (List.range 16).map (fun (i : ℕ) => intBar (i : ℤ) 5 5 5 6)

/-- C7 (bug evidence): when the Stochastic window has zero width the
code divides by zero: `%K` is `NaN` (close equal to the flat window) or
`Infinity` (close above it), and the `NaN` flows through the stochastic
path of `calculateTechnicalIndicator` to the caller — not `null`, not a
defined constant. -/
theorem C7_stochastic_zero_range_undefined :
    TechnicalIndicators.Stochastic.calculate (c7FlatBars.map Bar.high)
      (c7FlatBars.map Bar.low) (c7FlatBars.map Bar.close) 14 3 =
      [⟨JSNum.nan, JSNum.nan⟩] ∧
    (calculateTechnicalIndicator c7FlatBars "stochastic").isOk = true ∧
    ((calculateTechnicalIndicator c7FlatBars "stochastic").toOption.getD []).get? 13 =
      some (.stochR 13 (some JSNum.nan) (some JSNum.nan)) ∧
    TechnicalIndicators.Stochastic.calculate (c7AboveBars.map Bar.high)
      (c7AboveBars.map Bar.low) (c7AboveBars.map Bar.close) 14 3 =
      [⟨JSNum.inf, JSNum.inf⟩] := by
  refine ⟨by decide, by decide, by decide, by decide⟩

/-! ## Claim theorems: output alignment (dates and length) -/

theorem map_date_mapWithIndex {β : Type} (g : β → ℤ) (f : ℕ → Bar → β)
    (hf : ∀ i b, g (f i b) = b.date) :
    ∀ (s : ℕ) (data : List Bar), (mapWithIndex f s data).map g = data.map Bar.date
  | _, [] => rfl
  | s, b :: bs => by
    simp [mapWithIndex, hf, map_date_mapWithIndex g f hf (s + 1) bs]

theorem singleRecords_dates (data : List Bar) (vals : List JSNum) (p : ℕ) :
    (singleRecords data vals p).map IndicatorRecord.date = data.map Bar.date := by
  unfold singleRecords
  rw [List.map_map]
  show (mapIndicatorToData data vals p).map IndicatorPoint.date = data.map Bar.date
  unfold mapIndicatorToData
  exact map_date_mapWithIndex IndicatorPoint.date _ (fun i b => rfl) 0 data

theorem macdRecords_dates (data : List Bar) :
    (macdRecords data).map IndicatorRecord.date = data.map Bar.date := by
  unfold macdRecords
  exact map_date_mapWithIndex IndicatorRecord.date _ (fun i b => by split <;> rfl) 0 data

theorem bollingerRecords_dates (data : List Bar) :
    (bollingerRecords data).map IndicatorRecord.date = data.map Bar.date := by
  unfold bollingerRecords
  exact map_date_mapWithIndex IndicatorRecord.date _ (fun i b => by split <;> rfl) 0 data

theorem stochasticRecords_dates (data : List Bar) :
    (stochasticRecords data).map IndicatorRecord.date = data.map Bar.date := by
  unfold stochasticRecords
  exact map_date_mapWithIndex IndicatorRecord.date _ (fun i b => by split <;> rfl) 0 data

/-- C10: whenever `calculateTechnicalIndicator` succeeds (that is, for
every supported indicator name), the output list has exactly the input's
length and the i-th record carries the i-th bar's date — for every
record kind (single-valued, MACD, Bollinger, Stochastic). -/
theorem C10_output_aligned (data : List Bar) (name : String)
    (out : List IndicatorRecord)
    (h : calculateTechnicalIndicator data name = .ok out) :
    out.map IndicatorRecord.date = data.map Bar.date ∧
    out.length = data.length := by
  have hmap : out.map IndicatorRecord.date = data.map Bar.date := by
    unfold calculateTechnicalIndicator at h
    split at h
    all_goals first
      | exact Except.noConfusion h
      | (injection h with h2; subst h2;
          first
            | exact singleRecords_dates ..
            | exact macdRecords_dates _
            | exact bollingerRecords_dates _
            | exact stochasticRecords_dates _)
  refine ⟨hmap, ?_⟩
  have hlen := congrArg List.length hmap
  simpa using hlen

/-- Witness for C10 on a one-bar series and the `sma` indicator. -/
theorem C10_output_aligned_witness :
    ((calculateTechnicalIndicator [intBar 3 1 1 1 2] "sma").toOption.getD []).map
        IndicatorRecord.date = [intBar 3 1 1 1 2].map Bar.date ∧
    ((calculateTechnicalIndicator [intBar 3 1 1 1 2] "sma").toOption.getD []).length =
      [intBar 3 1 1 1 2].length :=
  C10_output_aligned [intBar 3 1 1 1 2] "sma" _ (by decide)

/-! ## Claim theorems: MACD histogram identity -/

def c5Bars : List Bar :=
  mapWithIndex (fun i c => intBar (i : ℤ) c c c c) 0
    ((List.range 36).map (fun i => (100 + ((i * i * 7) % 13) : ℤ)))

set_option maxRecDepth 100000 in
/-- C5 (counterexample): on a concrete 36-bar series, the MACD records
returned by `calculateTechnicalIndicator` contain an entry whose three
fields are non-null and whose histogram differs from macd minus signal
(each field is rounded to 4 decimals independently). -/
theorem C5_counterexample :
    (match calculateTechnicalIndicator c5Bars "macd" with
      | .ok recs => recs.any (fun r =>
          match r with
          | .macdR _ (some m) (some s) (some h) => !(h.eqv (m - s))
          | _ => false)
      | .error _ => false) = true := by decide

/-- C5 (amended): the histogram field equals macd minus signal *exactly*
in every raw entry of `TechnicalIndicators.MACD.calculate`; each
returned record's fields are the 4-decimal roundings of the raw values,
so the returned histogram is `round4(rawMACD - rawSignal)` — the
identity survives only up to that rounding. -/
theorem C5_histogram_identity :
    (∀ (values : List JSNum) (fp sp sgp : ℕ),
      ∀ e ∈ TechnicalIndicators.MACD.calculate values fp sp sgp,
        e.histogram = e.MACD - e.signal) ∧
    (∀ (data : List Bar) (i : ℕ) (d : ℤ) (m s h : Option JSNum),
      (macdRecords data).get? i = some (.macdR d m s h) → m.isSome →
      ∃ e ∈ TechnicalIndicators.MACD.calculate (data.map Bar.close) 12 26 9,
        m = some e.MACD.round4 ∧ s = some e.signal.round4 ∧
        h = some ((e.MACD - e.signal).round4)) := by
  have hexact : ∀ (values : List JSNum) (fp sp sgp : ℕ),
      ∀ e ∈ TechnicalIndicators.MACD.calculate values fp sp sgp,
        e.histogram = e.MACD - e.signal := by
    intro values fp sp sgp e he
    unfold TechnicalIndicators.MACD.calculate at he
    simp only [List.mem_map] at he
    obtain ⟨i, _, hi⟩ := he
    rw [← hi]
  refine ⟨hexact, ?_⟩
  intro data i d m s h hi hm
  unfold macdRecords at hi
  rw [get?_mapWithIndex] at hi
  cases hb : data.get? i with
  | none => rw [hb] at hi; simp at hi
  | some b =>
    rw [hb] at hi
    simp only [Option.map_some', Nat.zero_add, Option.some.injEq] at hi
    rcases he : (if 25 ≤ i then
        (TechnicalIndicators.MACD.calculate (data.map Bar.close) 12 26 9).get?
          (i - 25) else none) with _ | e
    · rw [he] at hi
      cases hi
      simp at hm
    · rw [he] at hi
      cases hi
      have hmem : e ∈ TechnicalIndicators.MACD.calculate (data.map Bar.close) 12 26 9 := by
        rcases Nat.decLe 25 i with hle | hle
        · rw [if_neg hle] at he
          exact absurd he (by simp)
        · rw [if_pos hle] at he
          exact List.get?_mem he
      refine ⟨e, hmem, rfl, rfl, ?_⟩
      rw [← hexact (data.map Bar.close) 12 26 9 e hmem]

set_option maxRecDepth 100000 in
/-- Witness for the amended C5 on a constant series, where the MACD
entries are all zero. -/
theorem C5_histogram_identity_witness :
    (⟨JSNum.num 0, JSNum.num 0, JSNum.num 0⟩ : MacdEntry).histogram =
      (⟨JSNum.num 0, JSNum.num 0, JSNum.num 0⟩ : MacdEntry).MACD -
        (⟨JSNum.num 0, JSNum.num 0, JSNum.num 0⟩ : MacdEntry).signal :=
  C5_histogram_identity.1 (List.replicate 36 (JSNum.num 1)) 12 26 9 _ (by decide)

/-! ## Claim theorems: warm-up/null pattern of the indicator path -/

/-- A positive finite JS number. -/
def IsPosNum (x : JSNum) : Prop := ∃ q, x = JSNum.num q ∧ 0 < q.toRat

theorem jget_mem (values : List JSNum) (k : ℕ) (h : k < values.length) :
    jget values k ∈ values := by
  unfold jget
  cases hg : values.get? k with
  | none =>
    rw [List.get?_eq_none] at hg
    omega
  | some v => simpa [hg] using List.get?_mem hg

theorem Q.n_ne_zero_of_toRat_ne (a : Q) (h : a.toRat ≠ 0) : a.n ≠ 0 := by
  intro hn
  exact h ((Q.isZero_iff a).mp (by simp [Q.isZero, hn]))

theorem Q.n_ne_zero_of_toRat_pos (a : Q) (h : 0 < a.toRat) : a.n ≠ 0 :=
  Q.n_ne_zero_of_toRat_ne a (ne_of_gt h)

theorem JSNum.truthy_of_posNum (x : JSNum) (h : IsPosNum x) : x.truthy = true := by
  obtain ⟨q, rfl, hq⟩ := h
  have : q.isZero = false := by
    cases hz : q.isZero with
    | false => rfl
    | true => exact absurd ((Q.isZero_iff q).mp hz) (ne_of_gt hq)
  simp [JSNum.truthy, this]

/-- Dividing a positive finite number by a positive integer period is
positive finite. -/
theorem div_posNum (x : JSNum) (p : ℕ) (hp : 1 ≤ p) (hx : IsPosNum x) :
    IsPosNum (x / JSNum.ofNat p) := by
  obtain ⟨q, rfl, hq⟩ := hx
  have hn : (Q.ofInt p).n = (p : ℤ) := rfl
  have hnz : (Q.ofInt p).isZero = false := by
    simp only [Q.isZero, hn]
    simp
    omega
  rw [JSNum.ofNat, JSNum.div_num_pos _ _ (by simp [hnz])]
  refine ⟨_, rfl, ?_⟩
  rw [Q.toRat_div _ _ (by rw [hn]; exact_mod_cast Nat.pos_iff_ne_zero.mp hp)]
  apply div_pos hq
  rw [Q.toRat_ofInt]
  exact_mod_cast hp

theorem foldl_jget_add_pos (values : List JSNum)
    (hvals : ∀ x ∈ values, IsPosNum x) (g : ℕ → ℕ) :
    ∀ (l : List ℕ) (a : Q), 0 < a.toRat → (∀ j ∈ l, g j < values.length) →
      IsPosNum (l.foldl (fun sum j => sum + jget values (g j)) (JSNum.num a))
  | [], a, ha, _ => ⟨a, rfl, ha⟩
  | j :: l', a, ha, hb => by
    obtain ⟨qv, hqv, hqvpos⟩ :=
      hvals _ (jget_mem values (g j) (hb j (List.mem_cons_self j l')))
    simp only [List.foldl_cons, hqv, JSNum.add_num]
    exact foldl_jget_add_pos values hvals g l' (a.add qv)
      (by rw [Q.toRat_add]; positivity)
      (fun j hj => hb j (List.mem_cons_of_mem _ hj))

/-- A trailing-window sum of positive values is positive. -/
theorem rangeSum_pos (values : List JSNum) (hvals : ∀ x ∈ values, IsPosNum x)
    (g : ℕ → ℕ) (p : ℕ) (hp : 1 ≤ p)
    (hb : ∀ j, j < p → g j < values.length) :
    IsPosNum ((List.range p).foldl (fun sum j => sum + jget values (g j))
      (0 : JSNum)) := by
  obtain ⟨m, rfl⟩ := Nat.exists_eq_add_of_le hp
  rw [show 1 + m = m + 1 from Nat.add_comm 1 m, List.range_succ_eq_map]
  obtain ⟨qv, hqv, hqvpos⟩ := hvals _ (jget_mem values (g 0) (hb 0 (by omega)))
  simp only [List.foldl_cons, hqv]
  have hzero : (0 : JSNum) + JSNum.num qv = JSNum.num ((0 : Q).add qv) := rfl
  rw [hzero]
  apply foldl_jget_add_pos values hvals g _ _
    (by rw [Q.toRat_add, Q.toRat_zero]; linarith)
  intro j hj
  simp only [List.mem_map, List.mem_range] at hj
  obtain ⟨j0, hj0, rfl⟩ := hj
  exact hb _ (by omega)

theorem SMA_length (p : ℕ) (values : List JSNum) :
    (TechnicalIndicators.SMA.calculate p values).length =
      values.length - (p - 1) := by
  unfold TechnicalIndicators.SMA.calculate
  simp

theorem SMA_mem_pos (p : ℕ) (hp : 1 ≤ p) (values : List JSNum)
    (hvals : ∀ x ∈ values, IsPosNum x) :
    ∀ v ∈ TechnicalIndicators.SMA.calculate p values, IsPosNum v := by
  intro v hv
  unfold TechnicalIndicators.SMA.calculate at hv
  simp only [List.mem_map, List.mem_range'_1] at hv
  obtain ⟨i, hir, rfl⟩ := hv
  have hiL : i < values.length := by omega
  apply div_posNum _ p hp
  refine rangeSum_pos values hvals (fun j => i - j) p hp (fun j _ => ?_)
  show i - j < values.length
  omega

theorem EMA_length (p : ℕ) (values : List JSNum) (h : p ≤ values.length)
    (hp : 1 ≤ p) :
    (TechnicalIndicators.EMA.calculate p values).length =
      values.length - (p - 1) := by
  unfold TechnicalIndicators.EMA.calculate
  rw [List.length_scanl]
  rw [List.length_drop]
  omega

theorem scanl_invariant {α β : Type} (P : β → Prop) (f : β → α → β) :
    ∀ (l : List α) (b : β), P b → (∀ b' x, P b' → x ∈ l → P (f b' x)) →
      ∀ y ∈ List.scanl f b l, P y
  | [], b, hb, _, y, hy => by
    rw [List.scanl_nil, List.mem_singleton] at hy
    exact hy ▸ hb
  | a :: l', b, hb, hstep, y, hy => by
    rw [List.scanl_cons, List.singleton_append, List.mem_cons] at hy
    rcases hy with rfl | hy
    · exact hb
    · exact scanl_invariant P f l' (f b a)
        (hstep b a hb (List.mem_cons_self a l'))
        (fun b' x hb' hx => hstep b' x hb' (List.mem_cons_of_mem _ hx)) y hy

/-- The EMA multiplier `2/(period+1)` is a number in `(0, 1]`. -/
theorem ema_multiplier_form (p : ℕ) (hp : 1 ≤ p) :
    ∃ m : Q, (2 : JSNum) / (JSNum.ofNat p + 1) = JSNum.num m ∧
      0 < m.toRat ∧ m.toRat ≤ 1 := by
  have hden : JSNum.ofNat p + (1 : JSNum) = JSNum.num ((Q.ofInt p).add (Q.ofInt 1)) := rfl
  have hdenRat : ((Q.ofInt p).add (Q.ofInt 1)).toRat = (p : ℚ) + 1 := by
    rw [Q.toRat_add, Q.toRat_ofInt, Q.toRat_ofInt]
    norm_num
  have hdpos : (0 : ℚ) < ((Q.ofInt p).add (Q.ofInt 1)).toRat := by
    rw [hdenRat]
    positivity
  have hnz : ((Q.ofInt p).add (Q.ofInt 1)).isZero = false := by
    cases hz : ((Q.ofInt p).add (Q.ofInt 1)).isZero with
    | false => rfl
    | true => exact absurd ((Q.isZero_iff _).mp hz) (ne_of_gt hdpos)
  rw [hden, show (2 : JSNum) = JSNum.num (2 : Q) from rfl,
    JSNum.div_num_pos _ _ (by simp [hnz])]
  refine ⟨_, rfl, ?_, ?_⟩
  · rw [Q.toRat_div _ _ (Q.n_ne_zero_of_toRat_pos _ hdpos)]
    apply div_pos _ hdpos
    show (0 : ℚ) < ((2 : Q)).toRat
    rw [Q.toRat_ofNat]
    norm_num
  · rw [Q.toRat_div _ _ (Q.n_ne_zero_of_toRat_pos _ hdpos), hdenRat]
    rw [show ((2 : Q)).toRat = (2 : ℚ) from by rw [Q.toRat_ofNat]; norm_num]
    rw [div_le_one (by positivity)]
    have : (1 : ℚ) ≤ (p : ℚ) := by exact_mod_cast hp
    linarith

theorem emaStep_pos (m : Q) (hm0 : 0 < m.toRat) (hm1 : m.toRat ≤ 1)
    (prev c : JSNum) (hprev : IsPosNum prev) (hc : IsPosNum c) :
    IsPosNum (c * JSNum.num m + prev * ((1 : JSNum) - JSNum.num m)) := by
  obtain ⟨qp, rfl, hqp⟩ := hprev
  obtain ⟨qc, rfl, hqc⟩ := hc
  have h1 : (1 : JSNum) - JSNum.num m = JSNum.num ((1 : Q).sub m) := rfl
  rw [h1]
  refine ⟨_, rfl, ?_⟩
  simp only [JSNum.mul_num, JSNum.add_num, Q.toRat_add, Q.toRat_mul, Q.toRat_sub,
    Q.toRat_one]
  nlinarith

theorem EMA_mem_pos (p : ℕ) (hp : 1 ≤ p) (values : List JSNum)
    (hpl : p ≤ values.length)
    (hvals : ∀ x ∈ values, IsPosNum x) :
    ∀ v ∈ TechnicalIndicators.EMA.calculate p values, IsPosNum v := by
  obtain ⟨m, hm, hm0, hm1⟩ := ema_multiplier_form p hp
  intro v hv
  unfold TechnicalIndicators.EMA.calculate at hv
  rw [hm] at hv
  have hseed : IsPosNum (((List.range p).foldl
      (fun sum i => sum + jget values i) (0 : JSNum)) / JSNum.ofNat p) := by
    apply div_posNum _ p hp
    refine rangeSum_pos values hvals (fun j => j) p hp (fun j hj => ?_)
    show j < values.length
    omega
  apply scanl_invariant IsPosNum _ (values.drop p) _ hseed _ v hv
  intro b x hb hx
  exact emaStep_pos m hm0 hm1 b x hb (hvals x (List.mem_of_mem_drop hx))

/-- The claimed warm-up shape: the first `w` points carry `null`, every
later point carries a value. -/
def firstNullThenDefined (w : ℕ) (l : List IndicatorPoint) : Bool :=
  (List.range l.length).all (fun i =>
    match l.get? i with
    | some pt => if i < w then pt.value.isNone else pt.value.isSome
    | none => true)

theorem mapIndicatorToData_length (data : List Bar) (vals : List JSNum) (p : ℕ) :
    (mapIndicatorToData data vals p).length = data.length := by
  unfold mapIndicatorToData
  exact length_mapWithIndex _ _ _

/-- If the indicator values aligned at offset `p-1` cover exactly the
positions from `p-1` on and are all positive numbers, the mapped output
is null before `p-1` and defined from `p-1` on. -/
theorem mapped_firstNullThenDefined (data : List Bar) (vals : List JSNum) (p : ℕ)
    (hlen : vals.length = data.length - (p - 1))
    (hpos : ∀ v ∈ vals, IsPosNum v) :
    (mapIndicatorToData data vals p).length = data.length ∧
    firstNullThenDefined (p - 1) (mapIndicatorToData data vals p) = true := by
  refine ⟨mapIndicatorToData_length data vals p, ?_⟩
  unfold firstNullThenDefined
  rw [List.all_eq_true]
  intro i hi
  rw [List.mem_range, mapIndicatorToData_length] at hi
  unfold mapIndicatorToData
  rw [get?_mapWithIndex]
  cases hb : data.get? i with
  | none =>
    rw [List.get?_eq_none] at hb
    omega
  | some b =>
    simp only [Option.map_some', Nat.zero_add]
    by_cases hw : i < p - 1
    · rw [if_pos hw, if_neg (show ¬ p - 1 ≤ i by omega)]
      rfl
    · rw [if_neg hw, if_pos (show p - 1 ≤ i by omega)]
      have hvi : i - (p - 1) < vals.length := by omega
      cases hv : vals.get? (i - (p - 1)) with
      | none =>
        rw [List.get?_eq_none] at hv
        omega
      | some v =>
        have ht := JSNum.truthy_of_posNum v (hpos v (List.get?_mem hv))
        simp [ht]

def c1RsiBars : List Bar := (List.range 17).map (fun (i : ℕ) =>
  intBar (i : ℤ) ((i : ℤ) + 1) ((i : ℤ) + 1) ((i : ℤ) + 1) ((i : ℤ) + 1))

def c1AtrBars : List Bar := (List.range 16).map (fun (i : ℕ) =>
  intBar (i : ℤ) ((i : ℤ) + 2) ((i : ℤ) + 2) ((i : ℤ) + 1) ((i : ℤ) + 2))

def c1SmaBars : List Bar := (List.range 5).map (fun (i : ℕ) =>
  intBar (i : ℤ) ((i : ℤ) + 1) ((i : ℤ) + 1) ((i : ℤ) + 1) ((i : ℤ) + 1))

set_option maxRecDepth 100000 in
/-- C1 (counterexample): on strictly increasing closes of length 17, the
RSI path does *not* have warm-up 14 — index 13 is already defined and
indices 15–16 are null — and the non-null count is 2, not 17 − 14 = 3;
the ATR path on a 16-bar series likewise fails the claimed
first-14-null-then-defined shape. -/
theorem C1_counterexample :
    firstNullThenDefined 14 (mapIndicatorToData c1RsiBars
      (TechnicalIndicators.RSI.calculate 14 (c1RsiBars.map Bar.close)) 14) = false ∧
    ((mapIndicatorToData c1RsiBars
      (TechnicalIndicators.RSI.calculate 14 (c1RsiBars.map Bar.close)) 14).filter
        (fun pt => pt.value.isSome)).length = 2 ∧
    firstNullThenDefined 14 (mapIndicatorToData c1AtrBars
      (TechnicalIndicators.ATR.calculate (c1AtrBars.map Bar.high)
        (c1AtrBars.map Bar.low) (c1AtrBars.map Bar.close) 14) 14) = false := by
  refine ⟨by decide, by decide, by decide⟩

set_option maxRecDepth 100000 in
/-- C1 (amended): for SMA and EMA over positive closes the claimed shape
holds exactly — output length equals input length, the first `p-1`
entries are null and all later entries are defined. For RSI and ATR the
mapping still uses offset `p-1` and the library drops one leading delta,
so on the 17-bar increasing example RSI is defined at indices 13–14
(value 100) with two trailing nulls, and on the 16-bar example ATR is
defined at 13–14 (value 1) with one trailing null; the SMA(3) example
`[null, null, 2, 3, 4]` holds as stated. -/
theorem C1_warmup_shape :
    (∀ (p : ℕ) (data : List Bar), 1 ≤ p → p ≤ data.length →
      (∀ b ∈ data, IsPosNum b.close) →
      (mapIndicatorToData data
        (TechnicalIndicators.SMA.calculate p (data.map Bar.close)) p).length =
          data.length ∧
      firstNullThenDefined (p - 1) (mapIndicatorToData data
        (TechnicalIndicators.SMA.calculate p (data.map Bar.close)) p) = true) ∧
    (∀ (p : ℕ) (data : List Bar), 1 ≤ p → p ≤ data.length →
      (∀ b ∈ data, IsPosNum b.close) →
      (mapIndicatorToData data
        (TechnicalIndicators.EMA.calculate p (data.map Bar.close)) p).length =
          data.length ∧
      firstNullThenDefined (p - 1) (mapIndicatorToData data
        (TechnicalIndicators.EMA.calculate p (data.map Bar.close)) p) = true) ∧
    ptListEqv
      (mapIndicatorToData c1SmaBars
        (TechnicalIndicators.SMA.calculate 3 (c1SmaBars.map Bar.close)) 3)
      [⟨0, none, JSNum.num 1⟩, ⟨1, none, JSNum.num 2⟩,
        ⟨2, some (JSNum.num 2), JSNum.num 3⟩, ⟨3, some (JSNum.num 3), JSNum.num 4⟩,
        ⟨4, some (JSNum.num 4), JSNum.num 5⟩] = true ∧
    ptListEqv
      (mapIndicatorToData c1RsiBars
        (TechnicalIndicators.RSI.calculate 14 (c1RsiBars.map Bar.close)) 14)
      [⟨0, none, JSNum.num 1⟩, ⟨1, none, JSNum.num 2⟩, ⟨2, none, JSNum.num 3⟩,
        ⟨3, none, JSNum.num 4⟩, ⟨4, none, JSNum.num 5⟩, ⟨5, none, JSNum.num 6⟩,
        ⟨6, none, JSNum.num 7⟩, ⟨7, none, JSNum.num 8⟩, ⟨8, none, JSNum.num 9⟩,
        ⟨9, none, JSNum.num 10⟩, ⟨10, none, JSNum.num 11⟩,
        ⟨11, none, JSNum.num 12⟩, ⟨12, none, JSNum.num 13⟩,
        ⟨13, some (JSNum.num 100), JSNum.num 14⟩,
        ⟨14, some (JSNum.num 100), JSNum.num 15⟩,
        ⟨15, none, JSNum.num 16⟩, ⟨16, none, JSNum.num 17⟩] = true ∧
    ptListEqv
      (mapIndicatorToData c1AtrBars
        (TechnicalIndicators.ATR.calculate (c1AtrBars.map Bar.high)
          (c1AtrBars.map Bar.low) (c1AtrBars.map Bar.close) 14) 14)
      [⟨0, none, JSNum.num 2⟩, ⟨1, none, JSNum.num 3⟩, ⟨2, none, JSNum.num 4⟩,
        ⟨3, none, JSNum.num 5⟩, ⟨4, none, JSNum.num 6⟩, ⟨5, none, JSNum.num 7⟩,
        ⟨6, none, JSNum.num 8⟩, ⟨7, none, JSNum.num 9⟩, ⟨8, none, JSNum.num 10⟩,
        ⟨9, none, JSNum.num 11⟩, ⟨10, none, JSNum.num 12⟩,
        ⟨11, none, JSNum.num 13⟩, ⟨12, none, JSNum.num 14⟩,
        ⟨13, some (JSNum.num 1), JSNum.num 15⟩,
        ⟨14, some (JSNum.num 1), JSNum.num 16⟩,
        ⟨15, none, JSNum.num 17⟩] = true := by
  refine ⟨?_, ?_, by decide, by decide, by decide⟩
  · intro p data hp hpl hclose
    apply mapped_firstNullThenDefined
    · rw [SMA_length]
      simp
    · apply SMA_mem_pos p hp
      intro x hx
      simp only [List.mem_map] at hx
      obtain ⟨b, hb, rfl⟩ := hx
      exact hclose b hb
  · intro p data hp hpl hclose
    apply mapped_firstNullThenDefined
    · rw [EMA_length p _ (by simpa using hpl) hp]
      simp
    · apply EMA_mem_pos p hp _ (by simpa using hpl)
      intro x hx
      simp only [List.mem_map] at hx
      obtain ⟨b, hb, rfl⟩ := hx
      exact hclose b hb

/-- Witness for the amended C1: the SMA part at period 3 on the
five-bar example. -/
theorem C1_warmup_shape_witness :
    (mapIndicatorToData c1SmaBars
      (TechnicalIndicators.SMA.calculate 3 (c1SmaBars.map Bar.close)) 3).length =
        c1SmaBars.length ∧
    firstNullThenDefined 2 (mapIndicatorToData c1SmaBars
      (TechnicalIndicators.SMA.calculate 3 (c1SmaBars.map Bar.close)) 3) = true := by
  have h := C1_warmup_shape.1 3 c1SmaBars (by norm_num) (by decide)
    (by
      intro b hb
      unfold c1SmaBars at hb
      rw [List.mem_map] at hb
      obtain ⟨i, hi, rfl⟩ := hb
      refine ⟨_, rfl, ?_⟩
      rw [Q.toRat_ofInt]
      have hi1 : (0 : ℤ) < (i : ℤ) + 1 := by omega
      exact_mod_cast hi1)
  simpa using h

/-! ## Claim theorems: RSI boundedness and the zero-loss case -/

/-- A non-negative finite JS number. -/
def NonnegNum (x : JSNum) : Prop := ∃ q, x = JSNum.num q ∧ 0 ≤ q.toRat

/-- A JS number that is `NaN` or a finite value in `[0, 100]`. -/
def rsiBoundedVal (x : JSNum) : Prop :=
  x = JSNum.nan ∨ ∃ q, x = JSNum.num q ∧ 0 ≤ q.toRat ∧ q.toRat ≤ 100

theorem div_nonnegNum (x : JSNum) (p : ℕ) (hp : 1 ≤ p) (hx : NonnegNum x) :
    NonnegNum (x / JSNum.ofNat p) := by
  obtain ⟨q, rfl, hq⟩ := hx
  have hn : (Q.ofInt p).n = (p : ℤ) := rfl
  have hnz : (Q.ofInt p).isZero = false := by
    simp only [Q.isZero, hn]
    simp
    omega
  rw [JSNum.ofNat, JSNum.div_num_pos _ _ (by simp [hnz])]
  refine ⟨_, rfl, ?_⟩
  rw [Q.toRat_div _ _ (by rw [hn]; exact_mod_cast Nat.pos_iff_ne_zero.mp hp)]
  apply div_nonneg hq
  rw [Q.toRat_ofInt]
  positivity

theorem foldl_add_nonneg :
    ∀ (l : List JSNum) (x0 : JSNum), NonnegNum x0 → (∀ x ∈ l, NonnegNum x) →
      NonnegNum (l.foldl (fun a b => a + b) x0)
  | [], x0, h0, _ => h0
  | y :: l', x0, h0, hl => by
    obtain ⟨q0, hq0, hq0n⟩ := h0
    obtain ⟨qy, hqy, hqyn⟩ := hl y (List.mem_cons_self y l')
    simp only [List.foldl_cons, hq0, hqy, JSNum.add_num]
    exact foldl_add_nonneg l' _ ⟨_, rfl, by rw [Q.toRat_add]; linarith⟩
      (fun x hx => hl x (List.mem_cons_of_mem _ hx))

theorem rsiSeed_nonneg (p : ℕ) (hp : 1 ≤ p) (l : List JSNum)
    (hl : ∀ x ∈ l, NonnegNum x) : NonnegNum (TechnicalIndicators.rsiSeed p l) := by
  unfold TechnicalIndicators.rsiSeed
  apply div_nonnegNum _ p hp
  exact foldl_add_nonneg _ _ ⟨0, rfl, by simp⟩
    (fun x hx => hl x (List.mem_of_mem_take hx))

theorem wilderAvg_nonneg (p : ℕ) (hp : 1 ≤ p) (prev x : JSNum)
    (hprev : NonnegNum prev) (hx : NonnegNum x) :
    NonnegNum (TechnicalIndicators.wilderAvg p prev x) := by
  obtain ⟨qp, rfl, hqp⟩ := hprev
  obtain ⟨qx, rfl, hqx⟩ := hx
  unfold TechnicalIndicators.wilderAvg
  have h1 : JSNum.ofNat p - (1 : JSNum) = JSNum.num ((Q.ofInt p).sub 1) := rfl
  rw [h1]
  apply div_nonnegNum _ p hp
  simp only [JSNum.mul_num, JSNum.add_num]
  refine ⟨_, rfl, ?_⟩
  simp only [Q.toRat_add, Q.toRat_mul, Q.toRat_sub, Q.toRat_one, Q.toRat_ofInt]
  have hpq : (1 : ℚ) ≤ ((p : ℤ) : ℚ) := by exact_mod_cast hp
  nlinarith [mul_nonneg hqp (by linarith : (0 : ℚ) ≤ ((p : ℤ) : ℚ) - 1)]

theorem rsiOf_sat (g l : Q) (hg : 0 < g.toRat) (hl : l.toRat = 0) :
    ∃ q, TechnicalIndicators.rsiOf (JSNum.num g) (JSNum.num l) = JSNum.num q ∧
      q.toRat = 100 := by
  have hz : l.isZero = true := (Q.isZero_iff l).mpr hl
  have hgn : 0 < g.n := (Q.toRat_pos_iff g).mp hg
  unfold TechnicalIndicators.rsiOf
  have hdiv : JSNum.num g / JSNum.num l = JSNum.inf := by
    show JSNum.div (JSNum.num g) (JSNum.num l) = JSNum.inf
    simp only [JSNum.div]
    rw [if_pos hz, if_pos hgn]
  rw [hdiv]
  rw [show (1 : JSNum) + JSNum.inf = JSNum.inf from rfl]
  rw [show (100 : JSNum) / JSNum.inf = JSNum.num 0 from rfl]
  rw [show (100 : JSNum) - JSNum.num 0 = JSNum.num ((100 : Q).sub 0) from rfl]
  refine ⟨_, rfl, ?_⟩
  rw [Q.toRat_sub]
  rw [Q.toRat_zero]
  rw [show ((100 : Q)).toRat = (100 : ℚ) from by rw [Q.toRat_ofNat]; norm_num]
  norm_num

theorem rsiOf_nan (g l : Q) (hg : g.toRat = 0) (hl : l.toRat = 0) :
    TechnicalIndicators.rsiOf (JSNum.num g) (JSNum.num l) = JSNum.nan := by
  have hz : l.isZero = true := (Q.isZero_iff l).mpr hl
  have hgz : g.n = 0 := by
    have := (Q.isZero_iff g).mpr hg
    simpa [Q.isZero] using this
  unfold TechnicalIndicators.rsiOf
  have hdiv : JSNum.num g / JSNum.num l = JSNum.nan := by
    show JSNum.div (JSNum.num g) (JSNum.num l) = JSNum.nan
    simp only [JSNum.div]
    rw [if_pos hz, if_neg (by omega), if_neg (by omega)]
  rw [hdiv]
  rfl

theorem rsiOf_posden (g l : Q) (hg : 0 ≤ g.toRat) (hl : 0 < l.toRat) :
    ∃ q, TechnicalIndicators.rsiOf (JSNum.num g) (JSNum.num l) = JSNum.num q ∧
      0 ≤ q.toRat ∧ q.toRat ≤ 100 := by
  have hlz : l.isZero = false := by
    cases hz : l.isZero with
    | false => rfl
    | true => exact absurd ((Q.isZero_iff l).mp hz) (ne_of_gt hl)
  have hln : l.n ≠ 0 := Q.n_ne_zero_of_toRat_pos l hl
  unfold TechnicalIndicators.rsiOf
  rw [JSNum.div_num_pos _ _ (by simp [hlz])]
  have hr : 0 ≤ (g.div l).toRat := by
    rw [Q.toRat_div _ _ hln]
    exact div_nonneg hg (le_of_lt hl)
  rw [show (1 : JSNum) + JSNum.num (g.div l) = JSNum.num ((1 : Q).add (g.div l)) from rfl]
  have hden : ((1 : Q).add (g.div l)).toRat = 1 + (g.div l).toRat := by
    rw [Q.toRat_add, Q.toRat_one]
  have hdenpos : 0 < ((1 : Q).add (g.div l)).toRat := by
    rw [hden]
    linarith
  have hdenz : ((1 : Q).add (g.div l)).isZero = false := by
    cases hz : ((1 : Q).add (g.div l)).isZero with
    | false => rfl
    | true => exact absurd ((Q.isZero_iff _).mp hz) (ne_of_gt hdenpos)
  rw [show (100 : JSNum) = JSNum.num (100 : Q) from rfl,
    JSNum.div_num_pos _ _ (by simp [hdenz])]
  have h100 : ((100 : Q)).toRat = (100 : ℚ) := by rw [Q.toRat_ofNat]; norm_num
  have ht : ((100 : Q).div ((1 : Q).add (g.div l))).toRat =
      100 / ((1 : Q).add (g.div l)).toRat := by
    rw [Q.toRat_div _ _ (Q.n_ne_zero_of_toRat_pos _ hdenpos), h100]
  rw [show JSNum.num (100 : Q) - JSNum.num ((100 : Q).div ((1 : Q).add (g.div l))) =
    JSNum.num ((100 : Q).sub ((100 : Q).div ((1 : Q).add (g.div l)))) from rfl]
  refine ⟨_, rfl, ?_, ?_⟩
  · rw [Q.toRat_sub, h100, ht, hden]
    have : 100 / (1 + (g.div l).toRat) ≤ 100 := by
      apply div_le_self (by norm_num)
      linarith
    linarith
  · rw [Q.toRat_sub, h100, ht, hden]
    have : 0 < 100 / (1 + (g.div l).toRat) := by
      apply div_pos (by norm_num)
      linarith
    linarith

theorem rsiOf_bounded (g l : Q) (hg : 0 ≤ g.toRat) (hl : 0 ≤ l.toRat) :
    rsiBoundedVal (TechnicalIndicators.rsiOf (JSNum.num g) (JSNum.num l)) := by
  rcases eq_or_lt_of_le hl with hl0 | hlpos
  · rcases eq_or_lt_of_le hg with hg0 | hgpos
    · exact Or.inl (rsiOf_nan g l hg0.symm hl0.symm)
    · obtain ⟨q, hq, h100⟩ := rsiOf_sat g l hgpos hl0.symm
      exact Or.inr ⟨q, hq, by rw [h100]; norm_num, le_of_eq h100⟩
  · exact Or.inr (rsiOf_posden g l hg hlpos)

theorem rsiGains_nonneg (values : List JSNum)
    (hv : ∀ x ∈ values, ∃ q, x = JSNum.num q) :
    ∀ x ∈ TechnicalIndicators.rsiGains values, NonnegNum x := by
  intro x hx
  unfold TechnicalIndicators.rsiGains TechnicalIndicators.rsiChanges at hx
  rw [List.map_map, List.mem_map] at hx
  obtain ⟨⟨a, b⟩, hab, rfl⟩ := hx
  obtain ⟨ha, hb⟩ := List.of_mem_zip hab
  obtain ⟨qa, rfl⟩ := hv a ha
  obtain ⟨qb, rfl⟩ := hv b (List.mem_of_mem_tail hb)
  show NonnegNum (if JSNum.gtb (JSNum.num (qb.sub qa)) 0 then
    JSNum.num (qb.sub qa) else 0)
  by_cases h : JSNum.gtb (JSNum.num (qb.sub qa)) 0 = true
  · rw [if_pos h]
    refine ⟨_, rfl, ?_⟩
    have h' : (0 : Q).blt (qb.sub qa) = true := h
    have hlt := (Q.blt_iff _ _).mp h'
    rw [Q.toRat_zero] at hlt
    linarith
  · rw [if_neg h]
    exact ⟨0, rfl, by simp⟩

theorem rsiLosses_nonneg (values : List JSNum)
    (hv : ∀ x ∈ values, ∃ q, x = JSNum.num q) :
    ∀ x ∈ TechnicalIndicators.rsiLosses values, NonnegNum x := by
  intro x hx
  unfold TechnicalIndicators.rsiLosses TechnicalIndicators.rsiChanges at hx
  rw [List.map_map, List.mem_map] at hx
  obtain ⟨⟨a, b⟩, hab, rfl⟩ := hx
  obtain ⟨ha, hb⟩ := List.of_mem_zip hab
  obtain ⟨qa, rfl⟩ := hv a ha
  obtain ⟨qb, rfl⟩ := hv b (List.mem_of_mem_tail hb)
  show NonnegNum (if JSNum.ltb (JSNum.num (qb.sub qa)) 0 then
    (JSNum.num (qb.sub qa)).abs else 0)
  by_cases h : JSNum.ltb (JSNum.num (qb.sub qa)) 0 = true
  · rw [if_pos h]
    exact ⟨(qb.sub qa).qabs, rfl, by rw [Q.toRat_qabs]; positivity⟩
  · rw [if_neg h]
    exact ⟨0, rfl, by simp⟩

/-- Invariant of the RSI fold: if both running averages are non-negative
finite numbers, the accumulated RSI values so far are all `NaN`-or-`[0,100]`,
and the remaining gain/loss pairs are non-negative finite numbers, then the
fold's final value list is all `NaN`-or-`[0,100]`. -/
theorem rsi_fold_invariant (p : ℕ) (hp : 1 ≤ p) (l : List (JSNum × JSNum)) :
    ∀ st : JSNum × JSNum × List JSNum,
      NonnegNum st.1 → NonnegNum st.2.1 → (∀ x ∈ st.2.2, rsiBoundedVal x) →
      (∀ gl ∈ l, NonnegNum gl.1 ∧ NonnegNum gl.2) →
      ∀ x ∈ (l.foldl (TechnicalIndicators.rsiStep p) st).2.2, rsiBoundedVal x := by
  induction l with
  | nil => intro st _ _ hacc _; exact hacc
  | cons gl l' ih =>
    intro st hg hl hacc hel
    simp only [List.foldl_cons]
    have hgl := hel gl (List.mem_cons_self gl l')
    have hg' := wilderAvg_nonneg p hp st.1 gl.1 hg hgl.1
    have hl' := wilderAvg_nonneg p hp st.2.1 gl.2 hl hgl.2
    refine ih _ hg' hl' ?_ (fun y hy => hel y (List.mem_cons_of_mem _ hy))
    intro x hx
    have hx' : x ∈ st.2.2 ++
        [TechnicalIndicators.rsiOf (TechnicalIndicators.wilderAvg p st.1 gl.1)
          (TechnicalIndicators.wilderAvg p st.2.1 gl.2)] := hx
    rw [List.mem_append, List.mem_singleton] at hx'
    rcases hx' with h | rfl
    · exact hacc x h
    · obtain ⟨qg, hqg, hqgn⟩ := hg'
      obtain ⟨ql, hql, hqln⟩ := hl'
      rw [hqg, hql]
      exact rsiOf_bounded qg ql hqgn hqln

/-- Every value produced by `RSI.calculate` on a series of finite JS numbers
is either `NaN` or a finite value in `[0, 100]`. -/
theorem RSI_calculate_bounded (p : ℕ) (hp : 1 ≤ p) (values : List JSNum)
    (hv : ∀ x ∈ values, ∃ q, x = JSNum.num q) :
    ∀ x ∈ TechnicalIndicators.RSI.calculate p values, rsiBoundedVal x := by
  intro x hx
  have hgains := rsiGains_nonneg values hv
  have hlosses := rsiLosses_nonneg values hv
  refine rsi_fold_invariant p hp _ _ ?_ ?_ ?_ ?_ x hx
  · exact rsiSeed_nonneg p hp _ hgains
  · exact rsiSeed_nonneg p hp _ hlosses
  · intro y hy
    exact absurd hy (List.not_mem_nil y)
  · intro gl hgl
    obtain ⟨g, l'⟩ := gl
    obtain ⟨h1, h2⟩ := List.of_mem_zip hgl
    exact ⟨hgains _ (List.mem_of_mem_drop h1), hlosses _ (List.mem_of_mem_drop h2)⟩

/-- `toFixed(k)`-style rounding preserves the interval `[0, 100]`. -/
theorem ratRoundTo_bounds (k : ℕ) (x : ℚ) (h0 : 0 ≤ x) (h100 : x ≤ 100) :
    0 ≤ ratRoundTo k x ∧ ratRoundTo k x ≤ 100 := by
  unfold ratRoundTo
  have hpow : (0 : ℚ) < 10 ^ k := by positivity
  constructor
  · apply div_nonneg _ hpow.le
    have hz : (0 : ℤ) ≤ round (x * 10 ^ k) := by
      rw [round_eq, Int.le_floor]
      push_cast
      nlinarith [mul_nonneg h0 hpow.le]
    exact_mod_cast hz
  · rw [div_le_iff₀ hpow]
    have hub : round (x * 10 ^ k) ≤ (100 * 10 ^ k : ℤ) := by
      rw [round_eq]
      have hlt : ⌊x * 10 ^ k + 1 / 2⌋ < 100 * 10 ^ k + 1 := by
        rw [Int.floor_lt]
        push_cast
        nlinarith [mul_nonneg (by linarith : (0 : ℚ) ≤ 100 - x) hpow.le]
      omega
    calc ((round (x * 10 ^ k) : ℤ) : ℚ) ≤ ((100 * 10 ^ k : ℤ) : ℚ) := by
          exact_mod_cast hub
      _ = 100 * 10 ^ k := by push_cast; ring

/-- Any non-null value in the mapped per-date output is the 4-decimal
rounding of a truthy indicator value; if every indicator value is
`NaN`-or-`[0,100]`, every non-null mapped value is a finite number in
`[0, 100]`. -/
theorem mapped_values_bounded (data : List Bar) (vals : List JSNum) (p : ℕ)
    (hb : ∀ x ∈ vals, rsiBoundedVal x) :
    ∀ pt ∈ mapIndicatorToData data vals p, ∀ v, pt.value = some v →
      ∃ q, v = JSNum.num q ∧ 0 ≤ q.toRat ∧ q.toRat ≤ 100 := by
  intro pt hpt v hv
  rw [List.mem_iff_get?] at hpt
  obtain ⟨j, hj⟩ := hpt
  unfold mapIndicatorToData at hj
  rw [get?_mapWithIndex] at hj
  cases hbj : data.get? j with
  | none => rw [hbj] at hj; simp at hj
  | some b =>
    rw [hbj] at hj
    simp only [Option.map_some'] at hj
    injection hj with hj
    subst hj
    simp only [Nat.zero_add] at hv
    split at hv
    · split at hv
      next w heq =>
        split at hv
        next ht =>
          injection hv with hv
          subst hv
          rcases hb w (List.get?_mem heq) with hnan | ⟨q, rfl, hq0, hq1⟩
          · rw [hnan] at ht
            exact absurd ht (by decide)
          · refine ⟨q.roundTo 4, rfl, ?_, ?_⟩
            · rw [Q.toRat_roundTo]
              exact (ratRoundTo_bounds 4 q.toRat hq0 hq1).1
            · rw [Q.toRat_roundTo]
              exact (ratRoundTo_bounds 4 q.toRat hq0 hq1).2
        next ht => exact Option.noConfusion hv
      next heq => exact Option.noConfusion hv
    · exact Option.noConfusion hv

def c3FlatBars : List Bar := (List.range 17).map (fun (i : ℕ) =>
  intBar (i : ℤ) 5 5 5 5)

set_option maxRecDepth 100000 in
/-- C3 (counterexample): on a flat 17-bar close series every delta is 0, so
`avgGain = avgLoss = 0` and both library RSI values are `0/0 = NaN` — the
division-by-zero case `avgLoss = 0` does *not* always yield the sentinel
100 — and the mapped record at the first post-warm-up date carries `null`,
not 100. -/
theorem C3_counterexample :
    TechnicalIndicators.RSI.calculate 14 (c3FlatBars.map Bar.close) =
      [JSNum.nan, JSNum.nan] ∧
    (mapIndicatorToData c3FlatBars
      (TechnicalIndicators.RSI.calculate 14 (c3FlatBars.map Bar.close)) 14).get? 13 =
      some ⟨13, none, JSNum.num (Q.ofInt 5)⟩ :=
  ⟨by decide, by decide⟩

/-- C3 (amended): for every period `p ≥ 1` and every series of finite JS
numbers, (1) every library RSI value is either `NaN` or a finite value in
`[0, 100]`; (2) every non-null value in the mapped per-date output is a
finite value in `[0, 100]`; (3) in the division-by-zero case `avgLoss = 0`
with `avgGain > 0` the RSI value is exactly the sentinel 100; but (4) when
`avgLoss = 0` and `avgGain = 0` the RSI value is `NaN`, not 100 (the
original claim's unconditional sentinel fails there, as the counterexample
shows). -/
theorem C3_rsi_bounded_sentinel (p : ℕ) (hp : 1 ≤ p) (values : List JSNum)
    (hv : ∀ x ∈ values, ∃ q, x = JSNum.num q) (data : List Bar) :
    (∀ x ∈ TechnicalIndicators.RSI.calculate p values, rsiBoundedVal x) ∧
    (∀ pt ∈ mapIndicatorToData data (TechnicalIndicators.RSI.calculate p values) p,
      ∀ v, pt.value = some v →
        ∃ q, v = JSNum.num q ∧ 0 ≤ q.toRat ∧ q.toRat ≤ 100) ∧
    (∀ g l : Q, 0 < g.toRat → l.toRat = 0 →
      ∃ q, TechnicalIndicators.rsiOf (JSNum.num g) (JSNum.num l) = JSNum.num q ∧
        q.toRat = 100) ∧
    (∀ g l : Q, g.toRat = 0 → l.toRat = 0 →
      TechnicalIndicators.rsiOf (JSNum.num g) (JSNum.num l) = JSNum.nan) :=
  ⟨RSI_calculate_bounded p hp values hv,
    mapped_values_bounded data _ p (RSI_calculate_bounded p hp values hv),
    rsiOf_sat, rsiOf_nan⟩

/-- C3 witness: the amended theorem applied at `p = 14`, a flat 17-value
close series, and the flat bar series; the saturation clause instantiated
at `avgGain = 1, avgLoss = 0` yields exactly 100. -/
theorem C3_rsi_bounded_sentinel_witness :
    (1 ≤ 14) ∧
    (∀ x ∈ TechnicalIndicators.RSI.calculate 14
        (List.replicate 17 (JSNum.num (Q.ofInt 5))), rsiBoundedVal x) ∧
    (∃ q, TechnicalIndicators.rsiOf (JSNum.num (Q.ofInt 1)) (JSNum.num (Q.ofInt 0)) =
        JSNum.num q ∧ q.toRat = 100) := by
  have h := C3_rsi_bounded_sentinel 14 (by decide)
    (List.replicate 17 (JSNum.num (Q.ofInt 5)))
    (fun x hx => ⟨Q.ofInt 5, List.eq_of_mem_replicate hx⟩) c3FlatBars
  refine ⟨by decide, h.1, h.2.2.1 (Q.ofInt 1) (Q.ofInt 0) ?_ ?_⟩
  · rw [Q.toRat_ofInt]; norm_num
  · rw [Q.toRat_ofInt]; norm_num
